import Mathlib

/-!
# Verification of `MakeDecider` (pkg/reconciler/autoscaling/kpa/resources/decider.go)

The development has three layers.

* `F64`: Go's `float64` (IEEE-754 binary64, round to nearest, ties to even).
  A finite value is a sign and a magnitude counted in units of `2^-1074`, the
  smallest positive subnormal; every finite double is a whole number of units.
* `Heap`: the reference objects reachable from an `ObjectMeta` (Go maps and
  slice backing arrays), so that copying and sharing can be told apart.
* `MakeDecider`: the function of the source file, in state-passing form
  (heap in, heap out) with the log events it emits.
-/

set_option exponentiation.threshold 5000
set_option maxRecDepth 1000000

namespace Knative

/-! ## float64 -/

/-- Go `float64` values. `fin neg k` is the finite value `(-1)^neg * k * 2^-1074`;
NaN payloads are not distinguished. -/
inductive F64 where
  | nan : F64
  | inf (neg : Bool) : F64
  | fin (neg : Bool) (k : Nat) : F64
  deriving DecidableEq, Repr

namespace F64

/-- Number of units in `1.0`. -/
def one : Nat := 2 ^ 1074

/-- Magnitude of the largest finite double, `(2^53 - 1) * 2^971`, in units. -/
def maxUnits : Nat := (2 ^ 53 - 1) * 2 ^ 2045

/-- Floor of the binary logarithm, by structural recursion on a fuel argument. -/
def ilog2 : Nat → Nat → Nat
  | 0, _ => 0
  | fuel + 1, n => if n < 2 then 0 else ilog2 fuel (n / 2) + 1

/-- Binary exponent of the spacing of doubles around a magnitude of `q` units:
below `2^53` units doubles are one unit apart, above they keep 53 significant bits. -/
def spacingExp (q : Nat) : Nat :=
  if q < 2 ^ 53 then 0 else ilog2 q q - 52

/-- Nearest multiple of the local spacing to the rational `N / D` (in units),
ties to the even significand. The exponent is unbounded here. -/
def roundUnits (N D : Nat) : Nat :=
  let s := spacingExp (N / D)
  let D' := D * 2 ^ s
  let m := N / D'
  let r := N % D'
  let m' := if 2 * r < D' then m
    else if D' < 2 * r then m + 1
    else if m % 2 = 0 then m else m + 1
  m' * 2 ^ s

/-- Round the magnitude `N / D` units with the given sign to a double;
a result beyond the largest finite double overflows to infinity. -/
def round (neg : Bool) (N D : Nat) : F64 :=
  let k := roundUnits N D
  if k ≤ maxUnits then fin neg k else inf neg

/-- Signed number of units of a finite value. -/
def sval (neg : Bool) (k : Nat) : Int :=
  if neg then -(k : Int) else (k : Int)

/-- Go `x < y` on float64: false as soon as an operand is NaN. -/
def lt : F64 → F64 → Bool
  | nan, _ => false
  | _, nan => false
  | inf a, inf b => a && !b
  | inf a, fin _ _ => a
  | fin _ _, inf b => !b
  | fin a j, fin b k => decide (sval a j < sval b k)

/-- Go `x <= y` on float64: false as soon as an operand is NaN. -/
def le : F64 → F64 → Bool
  | nan, _ => false
  | _, nan => false
  | inf a, inf b => a || !b
  | inf a, fin _ _ => a
  | fin _ _, inf b => !b
  | fin a j, fin b k => decide (sval a j ≤ sval b k)

/-- Go `x > y`. -/
def gt (x y : F64) : Bool := lt y x

/-- Go `x * y` on float64. -/
def mul : F64 → F64 → F64
  | nan, _ => nan
  | _, nan => nan
  | inf a, inf b => inf (xor a b)
  | inf a, fin b k => if k = 0 then nan else inf (xor a b)
  | fin a j, inf b => if j = 0 then nan else inf (xor a b)
  | fin a j, fin b k => round (xor a b) (j * k) one

/-- Go `x / y` on float64. -/
def div : F64 → F64 → F64
  | nan, _ => nan
  | _, nan => nan
  | inf _, inf _ => nan
  | inf a, fin b _ => inf (xor a b)
  | fin a _, inf b => fin (xor a b) 0
  | fin a j, fin b k =>
    if k = 0 then (if j = 0 then nan else inf (xor a b))
    else round (xor a b) (j * one) k

/-- The double nearest to an integer (exact for every integer below `2^53` in
magnitude, so for every `int32`). -/
def ofInt (i : Int) : F64 :=
  round (decide (i < 0)) (i.natAbs * one) 1

/-- The constant `100.0`. -/
def hundred : F64 := fin false (100 * one)

/-- The constant `+0.0`. -/
def zero : F64 := fin false 0

/-- Smallest positive normal double, `2^-1022`. -/
def minNormal : F64 := fin false (2 ^ 52)

end F64

/-- Go `int32`. -/
structure Int32 where
  val : Int
  lo : -2147483648 ≤ val
  hi : val ≤ 2147483647
  deriving DecidableEq

/-- Go conversion `int32(v)` of an integer: wraps modulo `2^32`. -/
def Int32.ofInt (v : Int) : Int32 :=
  ⟨(v + 2147483648) % 4294967296 - 2147483648, by omega, by omega⟩

/-- Go conversion `float64(mt)` of an `int32`. -/
def F64.ofInt32 (mt : Int32) : F64 := F64.ofInt mt.val

/-! ## Object metadata and the heap -/

/-- Contents of a Go `map[string]string`. -/
abbrev StrMap := List (String × String)

/-- Kubernetes owner reference (a plain struct of scalars). -/
structure OwnerReference where
  APIVersion : String
  Kind : String
  Name : String
  UID : String
  deriving DecidableEq, Repr

/-- A Go reference (map header or slice pointer): `none` is `nil`, `some a`
is the address of an object in the heap. -/
abbrev Ref := Option Nat

/-- The reference objects of the program: maps and slice backing arrays,
each addressed by its position. -/
structure Heap where
  maps : List StrMap
  slices : List (List OwnerReference)
  deriving DecidableEq, Repr

/-- Kubernetes `ObjectMeta`, restricted to the fields the specification names.
`Labels`, `Annotations` and `OwnerReferences` are references into the heap. -/
structure ObjectMeta where
  Namespace : String
  Name : String
  Labels : Ref
  Annotations : Ref
  OwnerReferences : Ref
  deriving DecidableEq, Repr

/-- What an `ObjectMeta` denotes once its references are followed. -/
structure MetaValue where
  Namespace : String
  Name : String
  Labels : Option StrMap
  Annotations : Option StrMap
  OwnerReferences : Option (List OwnerReference)
  deriving DecidableEq, Repr

namespace Heap

/-- Contents of the map at an address. -/
def mapAt (h : Heap) (a : Nat) : StrMap := h.maps.getD a []

/-- Contents of the slice at an address. -/
def sliceAt (h : Heap) (a : Nat) : List OwnerReference := h.slices.getD a []

/-- Follow the references of an `ObjectMeta`. -/
def view (h : Heap) (m : ObjectMeta) : MetaValue :=
  { Namespace := m.Namespace
    Name := m.Name
    Labels := m.Labels.map h.mapAt
    Annotations := m.Annotations.map h.mapAt
    OwnerReferences := m.OwnerReferences.map h.sliceAt }

/-- Every reference of the `ObjectMeta` points at an allocated object. -/
def valid (h : Heap) (m : ObjectMeta) : Prop :=
  (∀ a ∈ m.Labels, a < h.maps.length) ∧
  (∀ a ∈ m.Annotations, a < h.maps.length) ∧
  (∀ a ∈ m.OwnerReferences, a < h.slices.length)

instance (h : Heap) (m : ObjectMeta) : Decidable (h.valid m) := by
  unfold valid
  exact inferInstance

/-- Go `make(map[string]string)` followed by copying the entries of `m` in:
a fresh map object holding `m`. -/
def allocMap (h : Heap) (m : StrMap) : Heap × Nat :=
  ({ h with maps := h.maps ++ [m] }, h.maps.length)

/-- Go `make([]OwnerReference, len)` followed by element-wise copy. -/
def allocSlice (h : Heap) (s : List OwnerReference) : Heap × Nat :=
  ({ h with slices := h.slices ++ [s] }, h.slices.length)

/-- Deep copy of a map field: nil stays nil, otherwise a fresh map with the
same entries. -/
def copyMap (h : Heap) (r : Ref) : Heap × Ref :=
  match r with
  | none => (h, none)
  | some a => ((h.allocMap (h.mapAt a)).1, some (h.allocMap (h.mapAt a)).2)

/-- Deep copy of a slice field: nil stays nil, otherwise a fresh backing array
with the same elements. -/
def copySlice (h : Heap) (r : Ref) : Heap × Ref :=
  match r with
  | none => (h, none)
  | some a => ((h.allocSlice (h.sliceAt a)).1, some (h.allocSlice (h.sliceAt a)).2)

end Heap

/-- Modelled from the spec: `ObjectMeta.DeepCopy` (Kubernetes apimachinery, not
in the source tree). The struct is copied by value and every non-nil nested
mutable field (labels, annotations, owner references) is copied into a newly
allocated object; a nil field stays nil. -/
def ObjectMeta.DeepCopy (h : Heap) (m : ObjectMeta) : Heap × ObjectMeta :=
  let labels := h.copyMap m.Labels
  let annotations := labels.1.copyMap m.Annotations
  let owners := annotations.1.copySlice m.OwnerReferences
  (owners.1,
    { m with Labels := labels.2, Annotations := annotations.2, OwnerReferences := owners.2 })

/-! ## The autoscaling types -/

/-- Fields of `v1alpha1.PodAutoscalerSpec` read by `MakeDecider`. -/
structure PodAutoscalerSpec where
  ContainerConcurrency : Int
  deriving DecidableEq, Repr

/-- The `v1alpha1.PodAutoscaler` passed to `MakeDecider`. -/
structure PodAutoscaler where
  ObjectMeta : ObjectMeta
  Spec : PodAutoscalerSpec
  deriving DecidableEq, Repr

/-- Fields of `autoscaler.Config` read by `MakeDecider`; `TickInterval` is a
`time.Duration` (integer nanoseconds). -/
structure Config where
  TickInterval : Int
  MaxScaleUpRate : F64
  PanicThresholdPercentage : F64
  deriving DecidableEq, Repr

/-- The `autoscaler.DeciderSpec`; the metric specification type `μ` is opaque. -/
structure DeciderSpec (μ : Type) where
  TickInterval : Int
  MaxScaleUpRate : F64
  TargetConcurrency : F64
  PanicThreshold : F64
  MetricSpec : μ
  ServiceName : String
  deriving DecidableEq, Repr

/-- The `autoscaler.Decider`. -/
structure Decider (μ : Type) where
  ObjectMeta : ObjectMeta
  Spec : DeciderSpec μ
  deriving DecidableEq, Repr

/-- The value returned by `resources.MakeMetric`; only `.Spec` is read. -/
structure Metric (μ : Type) where
  Spec : μ

/-- The functions `MakeDecider` calls whose bodies are outside the source
file, taken as parameters. They are getters: they read the heap and their
arguments and return a value. -/
structure Env (μ : Type) where
  /-- The method `config.TargetConcurrency(containerConcurrency)`. -/
  TargetConcurrency : Config → Int → F64
  /-- The method `pa.Target()`; `none` is `ok = false`. -/
  Target : Heap → PodAutoscaler → Option Int32
  /-- The method `pa.PanicThresholdPercentage()`; `none` is `ok = false`. -/
  PanicThresholdPercentage : Heap → PodAutoscaler → Option F64
  /-- The function `resources.MakeMetric(ctx, pa, config)`. -/
  MakeMetric : Heap → PodAutoscaler → Config → Metric μ

/-- A record written through the contextual logger. -/
inductive LogEvent where
  | Warnf (format : String) (arg : F64) : LogEvent
  | Debugf (format : String) (arg : F64) : LogEvent
  deriving DecidableEq, Repr

/-- What a call of `MakeDecider` leaves behind: the heap after the call, the
Decider returned and the log records emitted, in order. -/
structure Result (μ : Type) where
  heap : Heap
  decider : Decider μ
  log : List LogEvent

/-- Lines 52-64 of `MakeDecider`: the resolved target and the log records. -/
def resolveTarget (base : F64) (ann : Option Int32) : F64 × List LogEvent :=
  match ann with
  | some mt =>
    let annotationTarget := F64.ofInt32 mt
    if F64.gt annotationTarget base then
      (base, [LogEvent.Warnf
        "Ignoring target of %v because it would underprovision the Revision." annotationTarget])
    else
      (annotationTarget, [LogEvent.Debugf "Using target of %v" annotationTarget])
  | none => (base, [])

/-- Lines 66-70 of `MakeDecider`: the annotation, else the cluster config. -/
def resolvePanicThresholdPercentage (ann : Option F64) (config : Config) : F64 :=
  match ann with
  | some p => p
  | none => config.PanicThresholdPercentage

/-- `MakeDecider` constructs a Decider resource from a PodAutoscaler taking
into account the PA's ContainerConcurrency and the relevant autoscaling
annotation. -/
def MakeDecider {μ : Type} (h : Heap) (env : Env μ) (pa : PodAutoscaler) (config : Config)
    (svc : String) : Result μ :=
  let resolved := resolveTarget (env.TargetConcurrency config pa.Spec.ContainerConcurrency)
    (env.Target h pa)
  let target := resolved.1
  let panicThresholdPercentage :=
    resolvePanicThresholdPercentage (env.PanicThresholdPercentage h pa) config
  let panicThreshold := F64.div (F64.mul target panicThresholdPercentage) F64.hundred
  let metricSpec := (env.MakeMetric h pa config).Spec
  let copy := ObjectMeta.DeepCopy h pa.ObjectMeta
  { heap := copy.1
    decider :=
      { ObjectMeta := copy.2
        Spec :=
          { TickInterval := config.TickInterval
            MaxScaleUpRate := config.MaxScaleUpRate
            TargetConcurrency := target
            PanicThreshold := panicThreshold
            MetricSpec := metricSpec
            ServiceName := svc } }
    log := resolved.2 }

/-! ## Operations used to state the claims -/

/-- Nearest whole number to `N / D`, ties to even: the significand that
`roundUnits` computes once the spacing is fixed. -/
def F64.nearestEven (N D : Nat) : Nat :=
  if 2 * (N % D) < D then N / D
  else if D < 2 * (N % D) then N / D + 1
  else if N / D % 2 = 0 then N / D else N / D + 1

/-- Go `x == y` on float64: false on NaN, and `-0 == +0`. -/
def F64.eq (x y : F64) : Bool := F64.le x y && F64.le y x

/-- The smaller of two float64 values, as the specification words it:
`a` when `a <= base`, else `base`. -/
def F64.min (a base : F64) : F64 := if F64.le a base then a else base

/-- Replace the contents of the map object at an address: any sequence of
Go writes `m[key] = value` and `delete(m, key)` through a reference to it. -/
def Heap.writeMap (h : Heap) (a : Nat) (m : StrMap) : Heap :=
  { h with maps := h.maps.set a m }

/-- Replace the contents of the backing array at an address: any sequence
of Go element writes `s[i] = o` through a reference to it. -/
def Heap.writeSlice (h : Heap) (a : Nat) (s : List OwnerReference) : Heap :=
  { h with slices := h.slices.set a s }

/-- Go `m[key] = value` on the map at address `a`. -/
def Heap.setMapEntry (h : Heap) (a : Nat) (key value : String) : Heap :=
  h.writeMap a ((key, value) :: (h.mapAt a).filter (fun e => e.1 != key))

/-- Go `s[i] = o` on the slice at address `a`. -/
def Heap.setSliceElem (h : Heap) (a i : Nat) (o : OwnerReference) : Heap :=
  h.writeSlice a ((h.sliceAt a).set i o)

/-! ## Concrete inputs used by the closed statements -/

/-- Collaborators that return fixed answers: base target, target annotation,
panic-threshold-percentage annotation and metric specification. -/
def fixedEnv (base : F64) (target : Option Int32) (pct : Option F64) (metric : Nat) : Env Nat :=
  { TargetConcurrency := fun _ _ => base
    Target := fun _ _ => target
    PanicThresholdPercentage := fun _ _ => pct
    MakeMetric := fun _ _ _ => ⟨metric⟩ }

/-- A heap holding a label map, an annotation map and one owner slice. -/
def sampleHeap : Heap :=
  { maps := [[("app", "demo")], [("autoscaling.knative.dev/class", "kpa")]]
    slices := [[⟨"serving.knative.dev/v1alpha1", "Revision", "demo-1", "u-1"⟩]] }

/-- A PodAutoscaler with container concurrency 10 whose metadata lives in `sampleHeap`. -/
def samplePA : PodAutoscaler :=
  { ObjectMeta :=
      { Namespace := "default", Name := "demo-1"
        Labels := some 0, Annotations := some 1, OwnerReferences := some 0 }
    Spec := { ContainerConcurrency := 10 } }

/-- Cluster configuration of the scenarios: panic percentage 200, tick 2 s, rate 10. -/
def sampleConfig : Config :=
  { TickInterval := 2000000000
    MaxScaleUpRate := F64.ofInt 10
    PanicThresholdPercentage := F64.ofInt 200 }

/-! ## Facts about float64 comparison -/

theorem F64.round_ne_nan (neg : Bool) (N D : Nat) : F64.round neg N D ≠ F64.nan := by
  simp only [F64.round]
  split <;> simp

theorem F64.ofInt32_ne_nan (mt : Int32) : F64.ofInt32 mt ≠ F64.nan :=
  F64.round_ne_nan _ _ _

theorem F64.le_self {x : F64} (hx : x ≠ F64.nan) : F64.le x x = true := by
  cases x with
  | nan => exact absurd rfl hx
  | inf a => cases a <;> rfl
  | fin a k => simp [F64.le]

theorem F64.le_of_gt_eq_false {x y : F64} (hx : x ≠ F64.nan) (hy : y ≠ F64.nan)
    (h : F64.gt x y = false) : F64.le x y = true := by
  cases x with
  | nan => exact absurd rfl hx
  | inf a =>
    cases y with
    | nan => exact absurd rfl hy
    | inf b => cases a <;> cases b <;> simp_all [F64.gt, F64.lt, F64.le]
    | fin b k => cases a <;> simp_all [F64.gt, F64.lt, F64.le]
  | fin a j =>
    cases y with
    | nan => exact absurd rfl hy
    | inf b => cases b <;> simp_all [F64.gt, F64.lt, F64.le]
    | fin b k =>
      simp only [F64.gt, F64.lt, decide_eq_false_iff_not, not_lt] at h
      simp [F64.le, h]

theorem F64.gt_eq_false_of_le {x y : F64} (h : F64.le x y = true) : F64.gt x y = false := by
  cases x with
  | nan => cases y <;> rfl
  | inf a =>
    cases y with
    | nan => rfl
    | inf b => cases a <;> cases b <;> simp_all [F64.gt, F64.lt, F64.le]
    | fin b k => cases a <;> simp_all [F64.gt, F64.lt, F64.le]
  | fin a j =>
    cases y with
    | nan => simp [F64.le] at h
    | inf b => cases b <;> simp_all [F64.gt, F64.lt, F64.le]
    | fin b k =>
      simp only [F64.le, decide_eq_true_eq] at h
      simp [F64.gt, F64.lt, h]

theorem F64.round_neg_le_zero (N D : Nat) : F64.le (F64.round true N D) F64.zero = true := by
  simp only [F64.round]
  split
  · simp [F64.le, F64.zero, F64.sval]
  · rfl

theorem F64.ofInt_le_zero {i : Int} (hi : i ≤ 0) : F64.le (F64.ofInt i) F64.zero = true := by
  rcases lt_or_eq_of_le hi with hneg | rfl
  · have hd : decide (i < 0) = true := by simpa using hneg
    rw [F64.ofInt, hd]
    exact F64.round_neg_le_zero _ _
  · decide

theorem F64.gt_eq_false_of_le_zero {x base : F64} (hx : F64.le x F64.zero = true)
    (hb : F64.lt base F64.zero = false) : F64.gt x base = false := by
  cases base with
  | nan => cases x <;> rfl
  | inf b =>
    cases b with
    | true => simp [F64.lt, F64.zero] at hb
    | false =>
      cases x with
      | nan => rfl
      | inf a => cases a <;> simp_all [F64.gt, F64.lt, F64.le, F64.zero]
      | fin a j => rfl
  | fin b k =>
    cases x with
    | nan => rfl
    | inf a => cases a <;> simp_all [F64.gt, F64.lt, F64.le, F64.zero]
    | fin a j =>
      simp only [F64.lt, F64.zero, F64.sval, decide_eq_false_iff_not, not_lt] at hb
      simp only [F64.le, F64.zero, F64.sval, decide_eq_true_eq] at hx
      simp only [F64.gt, F64.lt, F64.sval, decide_eq_false_iff_not, not_lt]
      simp only [Bool.false_eq_true, if_false, Nat.cast_zero] at hb hx
      exact le_trans hx hb

/-! ## Exactness of the integer conversion -/

theorem F64.ilog2_le (fuel : Nat) : ∀ n b : Nat, n < 2 ^ (b + 1) → F64.ilog2 fuel n ≤ b := by
  induction fuel with
  | zero => intro n b _; simp [F64.ilog2]
  | succ f ih =>
    intro n b hn
    unfold F64.ilog2
    split
    · exact Nat.zero_le _
    · rename_i h2
      cases b with
      | zero => simp at hn; omega
      | succ c =>
        have : n / 2 < 2 ^ (c + 1) := by
          rw [pow_succ] at hn
          omega
        have := ih (n / 2) c this
        omega

/-- With the argument itself as fuel `ilog2` is the floor of the binary logarithm. -/
theorem F64.lt_pow_ilog2 (fuel : Nat) :
    ∀ n : Nat, n ≤ fuel → n < 2 ^ (F64.ilog2 fuel n + 1) := by
  induction fuel with
  | zero => intro n hn; simp [F64.ilog2]; omega
  | succ f ih =>
    intro n hn
    unfold F64.ilog2
    split
    · simpa using (by omega : n < 2)
    · have := ih (n / 2) (by omega)
      rw [pow_succ]
      omega

theorem F64.spacingExp_le {q b : Nat} (hq : q < 2 ^ (b + 53)) : F64.spacingExp q ≤ b := by
  unfold F64.spacingExp
  split
  · exact Nat.zero_le _
  · have := F64.ilog2_le q q (b + 52) hq
    omega

/-- A whole number below `2^53` is a double: rounding leaves it alone. -/
theorem F64.roundUnits_int {n : Nat} (hn : n < 2 ^ 53) :
    F64.roundUnits (n * F64.one) 1 = n * F64.one := by
  have hs : F64.spacingExp (n * F64.one / 1) ≤ 1074 := by
    apply F64.spacingExp_le
    rw [Nat.div_one, F64.one, pow_add, mul_comm]
    exact Nat.mul_lt_mul_of_pos_left hn (by positivity)
  simp only [F64.roundUnits]
  generalize F64.spacingExp (n * F64.one / 1) = s at hs
  have hone : F64.one = 2 ^ s * 2 ^ (1074 - s) := by
    rw [F64.one, ← pow_add]
    congr 1
    omega
  have hN : n * F64.one = 1 * 2 ^ s * (n * 2 ^ (1074 - s)) := by
    rw [hone]; ring
  have hpos : 0 < 1 * 2 ^ s := by positivity
  rw [hN, Nat.mul_mod_right, Nat.mul_div_cancel_left _ hpos]
  simp only [Nat.mul_zero, hpos, if_true]
  ring

theorem F64.ofInt32_exact (mt : Int32) :
    F64.ofInt32 mt = F64.fin (decide (mt.val < 0)) (mt.val.natAbs * F64.one) := by
  have hn : mt.val.natAbs < 2 ^ 53 := by
    have := mt.lo
    have := mt.hi
    norm_num
    omega
  simp only [F64.ofInt32, F64.ofInt, F64.round, F64.roundUnits_int hn]
  rw [if_pos]
  have h1 : mt.val.natAbs ≤ 2 ^ 53 - 1 := by omega
  have h2 : F64.one ≤ 2 ^ 2045 := Nat.pow_le_pow_right (by decide) (by decide)
  exact Nat.mul_le_mul h1 h2

/-! ## Rounding error of float64 multiplication and division -/

theorem F64.one_pos : 0 < F64.one := Nat.pos_pow_of_pos _ (by decide)

theorem F64.pow_ilog2_le (fuel : Nat) : ∀ n : Nat, n ≠ 0 → 2 ^ F64.ilog2 fuel n ≤ n := by
  induction fuel with
  | zero => intro n hn; simpa [F64.ilog2] using Nat.pos_of_ne_zero hn
  | succ f ih =>
    intro n hn
    unfold F64.ilog2
    split
    · simpa using Nat.pos_of_ne_zero hn
    · have h2 : n / 2 ≠ 0 := by omega
      have := ih (n / 2) h2
      rw [pow_succ]
      omega

/-- Around a magnitude of at least `2^52` units the spacing of doubles is at
most `2^-52` of the magnitude. -/
theorem F64.spacing_le {N D : Nat} (hN : 2 ^ 52 * D ≤ N) :
    D * 2 ^ F64.spacingExp (N / D) * 2 ^ 52 ≤ N := by
  rcases Nat.eq_zero_or_pos D with rfl | hD
  · simp
  have hq : 2 ^ 52 ≤ N / D := (Nat.le_div_iff_mul_le hD).2 hN
  have key : 2 ^ F64.spacingExp (N / D) * 2 ^ 52 ≤ N / D := by
    unfold F64.spacingExp
    split
    · simpa using hq
    · rename_i hbig
      have hne : N / D ≠ 0 := by omega
      have hlog := F64.pow_ilog2_le (N / D) (N / D) hne
      by_cases h52 : 52 ≤ F64.ilog2 (N / D) (N / D)
      · rw [← pow_add, Nat.sub_add_cancel h52]
        exact hlog
      · have : F64.ilog2 (N / D) (N / D) - 52 = 0 := by omega
        rw [this]
        simpa using hq
  calc D * 2 ^ F64.spacingExp (N / D) * 2 ^ 52
      = D * (2 ^ F64.spacingExp (N / D) * 2 ^ 52) := by ring
    _ ≤ D * (N / D) := Nat.mul_le_mul_left _ key
    _ ≤ N := Nat.mul_div_le N D

/-- Rounding to nearest moves a magnitude down by at most half the spacing. -/
theorem F64.roundUnits_half (N : Nat) {D : Nat} (hD : 0 < D) :
    2 * N ≤ 2 * (F64.roundUnits N D * D) + D * 2 ^ F64.spacingExp (N / D) := by
  have hdm := Nat.div_add_mod N (D * 2 ^ F64.spacingExp (N / D))
  have hlt : N % (D * 2 ^ F64.spacingExp (N / D)) < D * 2 ^ F64.spacingExp (N / D) :=
    Nat.mod_lt _ (Nat.mul_pos hD (Nat.pos_pow_of_pos _ (by decide)))
  simp only [F64.roundUnits]
  generalize hS : 2 ^ F64.spacingExp (N / D) = S at hdm hlt ⊢
  generalize hm : N / (D * S) = m at hdm ⊢
  generalize hr : N % (D * S) = r at hdm hlt ⊢
  have e1 : m * S * D = D * S * m := by ring
  have e2 : (m + 1) * S * D = D * S * m + D * S := by ring
  clear hS hm hr
  split_ifs <;> simp only [e1, e2] <;> clear e1 e2 <;>
    generalize D * S * m = X at hdm ⊢ <;> generalize D * S = D' at * <;> omega

/-- Relative error of rounding: for a magnitude of at least `2^52` units
(the normal range) the rounded magnitude is at least `1 - 2^-53` times the
exact one. -/
theorem F64.roundUnits_lower {N D : Nat} (hD : 0 < D) (hN : 2 ^ 52 * D ≤ N) :
    N * (2 ^ 53 - 1) ≤ F64.roundUnits N D * D * 2 ^ 53 := by
  have h1 := F64.roundUnits_half N hD
  have h2 := F64.spacing_le hN
  generalize F64.roundUnits N D * D = K at h1 ⊢
  generalize D * 2 ^ F64.spacingExp (N / D) = D' at h1 h2
  norm_num at h2 ⊢
  omega

theorem F64.ofInt_101 : F64.ofInt 101 = F64.fin false (101 * F64.one) := by decide

theorem F64.mul_fin_pos (j k : Nat) :
    F64.mul (F64.fin false j) (F64.fin false k) = F64.round false (j * k) F64.one := rfl

theorem F64.div_hundred_pos (u : Nat) :
    F64.div (F64.fin false u) F64.hundred = F64.round false (u * F64.one) (100 * F64.one) := by
  have h0 : 100 * F64.one ≠ 0 := Nat.mul_ne_zero (by decide) F64.one_pos.ne'
  simp only [F64.div, F64.hundred, if_neg h0, Bool.xor_false]

/-- Multiplying a positive normal double by a percentage of at least 101 and
dividing by 100 gives a strictly larger double (or `+Inf`). -/
theorem F64.lt_mul_div_hundred {j k : Nat} (hj : 2 ^ 52 ≤ j) (hk : 101 * F64.one ≤ k) :
    F64.lt (F64.fin false j)
      (F64.div (F64.mul (F64.fin false j) (F64.fin false k)) F64.hundred) = true := by
  have hone := F64.one_pos
  have hN : 2 ^ 52 * F64.one ≤ j * k :=
    Nat.mul_le_mul hj (le_trans (Nat.le_mul_of_pos_left _ (by decide)) hk)
  have hu := F64.roundUnits_lower hone hN
  have hu' : 101 * (2 ^ 53 - 1) * j ≤ 2 ^ 53 * F64.roundUnits (j * k) F64.one := by
    refine Nat.le_of_mul_le_mul_right ?_ hone
    calc 101 * (2 ^ 53 - 1) * j * F64.one
        = j * (101 * F64.one) * (2 ^ 53 - 1) := by ring
      _ ≤ j * k * (2 ^ 53 - 1) := Nat.mul_le_mul_right _ (Nat.mul_le_mul_left _ hk)
      _ ≤ F64.roundUnits (j * k) F64.one * F64.one * 2 ^ 53 := hu
      _ = 2 ^ 53 * F64.roundUnits (j * k) F64.one * F64.one := by ring
  rw [F64.mul_fin_pos]
  simp only [F64.round]
  generalize F64.roundUnits (j * k) F64.one = u at hu'
  split
  · rw [F64.div_hundred_pos]
    have hD : 0 < 100 * F64.one := Nat.mul_pos (by decide) hone
    have hu100 : 2 ^ 52 * (100 * F64.one) ≤ u * F64.one := by
      have : 2 ^ 52 * 100 ≤ u := by
        norm_num at hu' hj ⊢
        omega
      calc 2 ^ 52 * (100 * F64.one) = 2 ^ 52 * 100 * F64.one := by ring
        _ ≤ u * F64.one := Nat.mul_le_mul_right _ this
    have hv := F64.roundUnits_lower hD hu100
    have hv' : (2 ^ 53 - 1) * u ≤
        100 * 2 ^ 53 * F64.roundUnits (u * F64.one) (100 * F64.one) := by
      refine Nat.le_of_mul_le_mul_right ?_ hone
      calc (2 ^ 53 - 1) * u * F64.one = u * F64.one * (2 ^ 53 - 1) := by ring
        _ ≤ F64.roundUnits (u * F64.one) (100 * F64.one) * (100 * F64.one) * 2 ^ 53 := hv
        _ = 100 * 2 ^ 53 * F64.roundUnits (u * F64.one) (100 * F64.one) * F64.one := by ring
    simp only [F64.round]
    generalize F64.roundUnits (u * F64.one) (100 * F64.one) = v at hv'
    split
    · simp only [F64.lt, F64.sval, Bool.false_eq_true, if_false, decide_eq_true_eq,
        Nat.cast_lt]
      norm_num at hu' hv' hj ⊢
      omega
    · rfl
  · rfl

theorem F64.pos_normal_of_le {t : F64} (hlo : F64.le F64.minNormal t = true)
    (hhi : F64.lt t (F64.inf false) = true) : ∃ j, t = F64.fin false j ∧ 2 ^ 52 ≤ j := by
  cases t with
  | nan => simp [F64.le, F64.minNormal] at hlo
  | inf b => cases b <;> simp [F64.le, F64.lt, F64.minNormal] at hlo hhi
  | fin b j =>
    cases b with
    | true =>
      simp only [F64.le, F64.minNormal, F64.sval, decide_eq_true_eq, if_true,
        Bool.false_eq_true, if_false] at hlo
      have hpos : (0 : Int) < ((2 ^ 52 : Nat) : Int) := by positivity
      omega
    | false =>
      simp only [F64.le, F64.minNormal, F64.sval, decide_eq_true_eq,
        Bool.false_eq_true, if_false, Nat.cast_le] at hlo
      exact ⟨j, rfl, hlo⟩

theorem F64.pct_of_le {p : F64} (hp : F64.le (F64.ofInt 101) p = true) :
    p = F64.inf false ∨ ∃ k, p = F64.fin false k ∧ 101 * F64.one ≤ k := by
  rw [F64.ofInt_101] at hp
  cases p with
  | nan => simp [F64.le] at hp
  | inf b => cases b <;> simp [F64.le] at hp ⊢
  | fin b k =>
    right
    cases b with
    | true =>
      simp only [F64.le, F64.sval, decide_eq_true_eq, if_true, Bool.false_eq_true,
        if_false] at hp
      have hpos : (0 : Int) < ((101 * F64.one : Nat) : Int) :=
        Int.ofNat_lt.2 (Nat.mul_pos (by decide) F64.one_pos)
      omega
    | false =>
      simp only [F64.le, F64.sval, decide_eq_true_eq, Bool.false_eq_true, if_false,
        Nat.cast_le] at hp
      exact ⟨k, rfl, hp⟩

/-! ## The resolved target (lines 52-64) -/

theorem resolveTarget_none (base : F64) : resolveTarget base none = (base, []) := rfl

theorem resolveTarget_rejected (base : F64) (mt : Int32)
    (hgt : F64.gt (F64.ofInt32 mt) base = true) :
    (resolveTarget base (some mt)).1 = base := by
  simp [resolveTarget, hgt]

theorem resolveTarget_accepted (base : F64) (mt : Int32)
    (hgt : F64.gt (F64.ofInt32 mt) base = false) :
    (resolveTarget base (some mt)).1 = F64.ofInt32 mt := by
  simp [resolveTarget, hgt]

theorem resolveTarget_le (base : F64) (ann : Option Int32) (hbase : base ≠ F64.nan) :
    F64.le (resolveTarget base ann).1 base = true := by
  cases ann with
  | none => exact F64.le_self hbase
  | some mt =>
    cases hgt : F64.gt (F64.ofInt32 mt) base with
    | true => rw [resolveTarget_rejected base mt hgt]; exact F64.le_self hbase
    | false =>
      rw [resolveTarget_accepted base mt hgt]
      exact F64.le_of_gt_eq_false (F64.ofInt32_ne_nan mt) hbase hgt

/-! ## The panic threshold (lines 66-71) -/

theorem MakeDecider_panicThreshold {μ : Type} (h : Heap) (env : Env μ) (pa : PodAutoscaler)
    (cfg : Config) (svc : String) :
    (MakeDecider h env pa cfg svc).decider.Spec.PanicThreshold =
      F64.div
        (F64.mul (MakeDecider h env pa cfg svc).decider.Spec.TargetConcurrency
          ((env.PanicThresholdPercentage h pa).getD cfg.PanicThresholdPercentage))
        F64.hundred := by
  show F64.div (F64.mul _ (resolvePanicThresholdPercentage _ cfg)) _ = _
  cases env.PanicThresholdPercentage h pa <;> rfl

/-! ## Deep copy and the heap -/

theorem Heap.mapAt_of_prefix {h h' : Heap} (hp : h.maps <+: h'.maps) {a : Nat}
    (ha : a < h.maps.length) : h'.mapAt a = h.mapAt a := by
  obtain ⟨ms, hms⟩ := hp
  unfold Heap.mapAt
  rw [← hms]
  exact List.getD_append _ _ _ _ ha

theorem Heap.sliceAt_of_prefix {h h' : Heap} (hp : h.slices <+: h'.slices) {a : Nat}
    (ha : a < h.slices.length) : h'.sliceAt a = h.sliceAt a := by
  obtain ⟨ss, hss⟩ := hp
  unfold Heap.sliceAt
  rw [← hss]
  exact List.getD_append _ _ _ _ ha

theorem Heap.refMap_of_prefix {h h' : Heap} (hp : h.maps <+: h'.maps) {r : Ref}
    (hr : ∀ a ∈ r, a < h.maps.length) : r.map h'.mapAt = r.map h.mapAt := by
  cases r with
  | none => rfl
  | some a => simp [Heap.mapAt_of_prefix hp (hr a rfl)]

theorem Heap.refSlice_of_prefix {h h' : Heap} (hp : h.slices <+: h'.slices) {r : Ref}
    (hr : ∀ a ∈ r, a < h.slices.length) : r.map h'.sliceAt = r.map h.sliceAt := by
  cases r with
  | none => rfl
  | some a => simp [Heap.sliceAt_of_prefix hp (hr a rfl)]

theorem Heap.copyMap_maps (h : Heap) (r : Ref) : h.maps <+: (h.copyMap r).1.maps := by
  cases r with
  | none => exact List.prefix_refl _
  | some a => exact List.prefix_append _ _

theorem Heap.copyMap_slices (h : Heap) (r : Ref) : (h.copyMap r).1.slices = h.slices := by
  cases r <;> rfl

theorem Heap.copyMap_fresh (h : Heap) (r : Ref) :
    ∀ a ∈ (h.copyMap r).2, h.maps.length ≤ a ∧ a < (h.copyMap r).1.maps.length := by
  cases r with
  | none => intro a ha; cases ha
  | some b =>
    intro a ha
    cases ha
    simp [Heap.copyMap, Heap.allocMap]

theorem Heap.copyMap_contents (h : Heap) (r : Ref) :
    (h.copyMap r).2.map (h.copyMap r).1.mapAt = r.map h.mapAt := by
  cases r with
  | none => rfl
  | some b => simp [Heap.copyMap, Heap.allocMap, Heap.mapAt]

theorem Heap.copySlice_slices (h : Heap) (r : Ref) : h.slices <+: (h.copySlice r).1.slices := by
  cases r with
  | none => exact List.prefix_refl _
  | some a => exact List.prefix_append _ _

theorem Heap.copySlice_maps (h : Heap) (r : Ref) : (h.copySlice r).1.maps = h.maps := by
  cases r <;> rfl

theorem Heap.copySlice_fresh (h : Heap) (r : Ref) :
    ∀ a ∈ (h.copySlice r).2, h.slices.length ≤ a ∧ a < (h.copySlice r).1.slices.length := by
  cases r with
  | none => intro a ha; cases ha
  | some b =>
    intro a ha
    cases ha
    simp [Heap.copySlice, Heap.allocSlice]

theorem Heap.copySlice_contents (h : Heap) (r : Ref) :
    (h.copySlice r).2.map (h.copySlice r).1.sliceAt = r.map h.sliceAt := by
  cases r with
  | none => rfl
  | some b => simp [Heap.copySlice, Heap.allocSlice, Heap.sliceAt]

theorem ObjectMeta.DeepCopy_maps (h : Heap) (m : ObjectMeta) :
    h.maps <+: (ObjectMeta.DeepCopy h m).1.maps := by
  show h.maps <+: (((h.copyMap m.Labels).1.copyMap m.Annotations).1.copySlice _).1.maps
  rw [Heap.copySlice_maps]
  exact (Heap.copyMap_maps h _).trans (Heap.copyMap_maps _ _)

theorem ObjectMeta.DeepCopy_slices (h : Heap) (m : ObjectMeta) :
    h.slices <+: (ObjectMeta.DeepCopy h m).1.slices := by
  show h.slices <+: (((h.copyMap m.Labels).1.copyMap m.Annotations).1.copySlice _).1.slices
  refine List.IsPrefix.trans ?_ (Heap.copySlice_slices _ _)
  rw [Heap.copyMap_slices, Heap.copyMap_slices]

theorem Heap.view_of_prefix {h h' : Heap} (hm : h.maps <+: h'.maps)
    (hs : h.slices <+: h'.slices) {m : ObjectMeta} (hv : h.valid m) :
    h'.view m = h.view m := by
  obtain ⟨hl, ha, ho⟩ := hv
  simp only [Heap.view, Heap.refMap_of_prefix hm hl, Heap.refMap_of_prefix hm ha,
    Heap.refSlice_of_prefix hs ho]

theorem ObjectMeta.DeepCopy_view (h : Heap) (m : ObjectMeta) (hv : h.valid m) :
    (ObjectMeta.DeepCopy h m).1.view (ObjectMeta.DeepCopy h m).2 = h.view m := by
  have hL0 := Heap.copyMap_maps h m.Labels
  have hA := Heap.copyMap_maps (h.copyMap m.Labels).1 m.Annotations
  have hS := Heap.copySlice_maps ((h.copyMap m.Labels).1.copyMap m.Annotations).1
    m.OwnerReferences
  have hfin : ((h.copyMap m.Labels).1.copyMap m.Annotations).1.maps <+:
      (ObjectMeta.DeepCopy h m).1.maps := by
    show _ <+: (((h.copyMap m.Labels).1.copyMap m.Annotations).1.copySlice _).1.maps
    rw [hS]
  have hL : (h.copyMap m.Labels).2.map (ObjectMeta.DeepCopy h m).1.mapAt =
      m.Labels.map h.mapAt := by
    rw [Heap.refMap_of_prefix (hA.trans hfin) (fun a ha => (Heap.copyMap_fresh h _ a ha).2)]
    exact Heap.copyMap_contents h _
  have hAn : ((h.copyMap m.Labels).1.copyMap m.Annotations).2.map
      (ObjectMeta.DeepCopy h m).1.mapAt = m.Annotations.map h.mapAt := by
    rw [Heap.refMap_of_prefix hfin (fun a ha => (Heap.copyMap_fresh _ _ a ha).2),
      Heap.copyMap_contents]
    exact Heap.refMap_of_prefix hL0 hv.2.1
  have hO : (((h.copyMap m.Labels).1.copyMap m.Annotations).1.copySlice
      m.OwnerReferences).2.map (ObjectMeta.DeepCopy h m).1.sliceAt =
      m.OwnerReferences.map h.sliceAt := by
    show _ = m.OwnerReferences.map (fun a => h.slices.getD a [])
    rw [← Heap.copyMap_slices h m.Labels,
      ← Heap.copyMap_slices (h.copyMap m.Labels).1 m.Annotations]
    exact Heap.copySlice_contents _ _
  show Heap.view _ _ = _
  simp only [Heap.view, ObjectMeta.DeepCopy] at *
  rw [hL, hAn, hO]

/-! ## Writes through a reference -/

theorem Heap.mapAt_writeMap_ne (h : Heap) {a b : Nat} (hab : a ≠ b) (m : StrMap) :
    (h.writeMap a m).mapAt b = h.mapAt b := by
  simp [Heap.writeMap, Heap.mapAt, List.getElem?_set_ne hab]

theorem Heap.sliceAt_writeSlice_ne (h : Heap) {a b : Nat} (hab : a ≠ b)
    (s : List OwnerReference) : (h.writeSlice a s).sliceAt b = h.sliceAt b := by
  simp [Heap.writeSlice, Heap.sliceAt, List.getElem?_set_ne hab]

theorem Heap.refMap_writeMap (h : Heap) {a : Nat} {r : Ref} (hr : r ≠ some a) (m : StrMap) :
    r.map (h.writeMap a m).mapAt = r.map h.mapAt := by
  cases r with
  | none => rfl
  | some b =>
    have hab : a ≠ b := fun e => hr (by rw [e])
    simp [Heap.mapAt_writeMap_ne h hab]

theorem Heap.refSlice_writeSlice (h : Heap) {a : Nat} {r : Ref} (hr : r ≠ some a)
    (s : List OwnerReference) : r.map (h.writeSlice a s).sliceAt = r.map h.sliceAt := by
  cases r with
  | none => rfl
  | some b =>
    have hab : a ≠ b := fun e => hr (by rw [e])
    simp [Heap.sliceAt_writeSlice_ne h hab]

/-- A write to a map that the metadata does not reference leaves what the
metadata denotes unchanged. -/
theorem Heap.view_writeMap (h : Heap) {a : Nat} {m : ObjectMeta} (hl : m.Labels ≠ some a)
    (han : m.Annotations ≠ some a) (c : StrMap) : (h.writeMap a c).view m = h.view m := by
  simp only [Heap.view, Heap.refMap_writeMap h hl, Heap.refMap_writeMap h han]
  rfl

/-- A write to a slice that the metadata does not reference leaves what the
metadata denotes unchanged. -/
theorem Heap.view_writeSlice (h : Heap) {a : Nat} {m : ObjectMeta}
    (ho : m.OwnerReferences ≠ some a) (s : List OwnerReference) :
    (h.writeSlice a s).view m = h.view m := by
  simp only [Heap.view, Heap.refSlice_writeSlice h ho]
  rfl

/-- The references of a deep copy are all freshly allocated. -/
theorem ObjectMeta.DeepCopy_fresh (h : Heap) (m : ObjectMeta) :
    (∀ b ∈ (ObjectMeta.DeepCopy h m).2.Labels, h.maps.length ≤ b) ∧
    (∀ b ∈ (ObjectMeta.DeepCopy h m).2.Annotations, h.maps.length ≤ b) ∧
    (∀ b ∈ (ObjectMeta.DeepCopy h m).2.OwnerReferences, h.slices.length ≤ b) := by
  refine ⟨fun b hb => (Heap.copyMap_fresh h m.Labels b hb).1, fun b hb => ?_, fun b hb => ?_⟩
  · have h1 := (Heap.copyMap_fresh (h.copyMap m.Labels).1 m.Annotations b hb).1
    exact le_trans (Heap.copyMap_maps h m.Labels).length_le h1
  · have h1 := (Heap.copySlice_fresh ((h.copyMap m.Labels).1.copyMap m.Annotations).1
      m.OwnerReferences b hb).1
    rw [Heap.copyMap_slices, Heap.copyMap_slices] at h1
    exact h1

/-! ## Order facts used for the minimum and for monotonicity -/

theorem F64.le_eq_false_of_gt {x y : F64} (h : F64.gt x y = true) : F64.le x y = false := by
  cases hle : F64.le x y with
  | false => rfl
  | true => rw [F64.gt_eq_false_of_le hle] at h; cases h

theorem F64.ne_nan_of_gt {x y : F64} (h : F64.gt x y = true) : y ≠ F64.nan := by
  rintro rfl
  cases x <;> simp [F64.gt, F64.lt] at h

theorem F64.sval_ofInt (v : Int) :
    F64.sval (decide (v < 0)) (v.natAbs * F64.one) = v * (F64.one : Int) := by
  by_cases hv : v < 0
  · simp only [F64.sval, hv, decide_True, if_true, Nat.cast_mul, Int.natCast_natAbs]
    rw [abs_of_neg hv]
    ring
  · simp only [F64.sval, hv, decide_False, Bool.false_eq_true, if_false, Nat.cast_mul,
      Int.natCast_natAbs]
    rw [abs_of_nonneg (not_lt.1 hv)]

/-- The conversion `float64(int32)` preserves the order. -/
theorem F64.ofInt32_le {a b : Int32} (hab : a.val ≤ b.val) :
    F64.le (F64.ofInt32 a) (F64.ofInt32 b) = true := by
  rw [F64.ofInt32_exact, F64.ofInt32_exact]
  simp only [F64.le, F64.sval_ofInt, decide_eq_true_eq]
  exact mul_le_mul_of_nonneg_right hab (Int.ofNat_nonneg _)

theorem F64.gt_of_le_of_gt {x y base : F64} (hxy : F64.le x y = true)
    (hx : F64.gt x base = true) (hyfin : ∃ n k, y = F64.fin n k)
    (hxfin : ∃ n k, x = F64.fin n k) : F64.gt y base = true := by
  obtain ⟨n, k, rfl⟩ := hyfin
  obtain ⟨n', k', rfl⟩ := hxfin
  cases base with
  | nan => simp [F64.gt, F64.lt] at hx
  | inf b => simpa [F64.gt, F64.lt] using hx
  | fin b j =>
    simp only [F64.gt, F64.lt, F64.le, decide_eq_true_eq] at hx hxy ⊢
    exact lt_of_lt_of_le hx hxy

theorem F64.ofInt32_fin (a : Int32) : ∃ n k, F64.ofInt32 a = F64.fin n k :=
  ⟨_, _, F64.ofInt32_exact a⟩

/-- The resolved target does not decrease when the annotation grows. -/
theorem resolveTarget_mono (base : F64) {a b : Int32} (hab : a.val ≤ b.val) :
    F64.le (resolveTarget base (some a)).1 (resolveTarget base (some b)).1 = true := by
  cases ha : F64.gt (F64.ofInt32 a) base with
  | true =>
    have hb := F64.gt_of_le_of_gt (F64.ofInt32_le hab) ha (F64.ofInt32_fin b)
      (F64.ofInt32_fin a)
    rw [resolveTarget_rejected base a ha, resolveTarget_rejected base b hb]
    exact F64.le_self (F64.ne_nan_of_gt ha)
  | false =>
    rw [resolveTarget_accepted base a ha]
    cases hb : F64.gt (F64.ofInt32 b) base with
    | true =>
      rw [resolveTarget_rejected base b hb]
      exact F64.le_of_gt_eq_false (F64.ofInt32_ne_nan a) (F64.ne_nan_of_gt hb) ha
    | false =>
      rw [resolveTarget_accepted base b hb]
      exact F64.ofInt32_le hab

theorem resolveTarget_eq_min (base : F64) (a : Int32) (hbase : base ≠ F64.nan) :
    (resolveTarget base (some a)).1 = F64.min (F64.ofInt32 a) base := by
  cases ha : F64.gt (F64.ofInt32 a) base with
  | true =>
    rw [resolveTarget_rejected base a ha, F64.min, F64.le_eq_false_of_gt ha]
    rfl
  | false =>
    rw [resolveTarget_accepted base a ha, F64.min,
      F64.le_of_gt_eq_false (F64.ofInt32_ne_nan a) hbase ha]
    rfl

theorem resolveTarget_mem (base : F64) (a : Int32) :
    (resolveTarget base (some a)).1 = F64.ofInt32 a ∨ (resolveTarget base (some a)).1 = base := by
  cases ha : F64.gt (F64.ofInt32 a) base with
  | true => exact Or.inr (resolveTarget_rejected base a ha)
  | false => exact Or.inl (resolveTarget_accepted base a ha)

theorem F64.roundUnits_zero (D : Nat) : F64.roundUnits 0 D = 0 := by
  simp [F64.roundUnits, F64.spacingExp]

theorem F64.round_zero (neg : Bool) (D : Nat) : F64.round neg 0 D = F64.fin neg 0 := by
  simp [F64.round, F64.roundUnits_zero]

/-! ## Monotonicity of float64 rounding, multiplication and division -/

theorem F64.lt_pow_spacingExp (q : Nat) : q < 2 ^ (F64.spacingExp q + 53) := by
  unfold F64.spacingExp
  split
  · simpa using ‹q < 2 ^ 53›
  · rename_i hq
    have hlt := F64.lt_pow_ilog2 q q le_rfl
    have h53 : 53 ≤ F64.ilog2 q q := by
      by_contra hcon
      have : 2 ^ (F64.ilog2 q q + 1) ≤ 2 ^ 53 :=
        Nat.pow_le_pow_right (by decide) (by omega)
      omega
    have e : F64.ilog2 q q - 52 + 53 = F64.ilog2 q q + 1 := by omega
    rw [e]
    exact hlt

theorem F64.pow_spacingExp_le {q : Nat} (hs : 0 < F64.spacingExp q) :
    2 ^ (F64.spacingExp q + 52) ≤ q := by
  unfold F64.spacingExp at hs ⊢
  split at hs
  · exact absurd hs (lt_irrefl 0)
  · rename_i hq
    rw [if_neg hq]
    have hne : q ≠ 0 := by
      rintro rfl
      exact hq (by positivity)
    have e : F64.ilog2 q q - 52 + 52 = F64.ilog2 q q := by omega
    rw [e]
    exact F64.pow_ilog2_le q q hne

theorem F64.spacingExp_mono {q₁ q₂ : Nat} (hq : q₁ ≤ q₂) :
    F64.spacingExp q₁ ≤ F64.spacingExp q₂ := by
  by_contra hcon
  have hlt : F64.spacingExp q₂ + 1 ≤ F64.spacingExp q₁ := by omega
  have h1 := F64.pow_spacingExp_le (q := q₁) (by omega)
  have h2 := F64.lt_pow_spacingExp q₂
  have h3 : 2 ^ (F64.spacingExp q₂ + 53) ≤ 2 ^ (F64.spacingExp q₁ + 52) :=
    Nat.pow_le_pow_right (by decide) (by omega)
  omega

theorem F64.roundUnits_eq (N D : Nat) :
    F64.roundUnits N D =
      F64.nearestEven N (D * 2 ^ F64.spacingExp (N / D)) * 2 ^ F64.spacingExp (N / D) := rfl

theorem F64.nearestEven_bounds (N D : Nat) :
    N / D ≤ F64.nearestEven N D ∧ F64.nearestEven N D ≤ N / D + 1 := by
  unfold F64.nearestEven
  split_ifs <;> omega

theorem F64.nearestEven_mono {N₁ N₂ D : Nat} (hN : N₁ ≤ N₂) :
    F64.nearestEven N₁ D ≤ F64.nearestEven N₂ D := by
  have hm : N₁ / D ≤ N₂ / D := Nat.div_le_div_right hN
  rcases Nat.lt_or_eq_of_le hm with hlt | heq
  · have h1 := (F64.nearestEven_bounds N₁ D).2
    have h2 := (F64.nearestEven_bounds N₂ D).1
    omega
  · have d1 := Nat.div_add_mod N₁ D
    have d2 := Nat.div_add_mod N₂ D
    rw [heq] at d1
    have hr : N₁ % D ≤ N₂ % D := by omega
    unfold F64.nearestEven
    rw [heq]
    split_ifs <;> omega

/-- Rounding to nearest is monotone. -/
theorem F64.roundUnits_mono {N₁ N₂ : Nat} (D : Nat) (hN : N₁ ≤ N₂) :
    F64.roundUnits N₁ D ≤ F64.roundUnits N₂ D := by
  have hq : N₁ / D ≤ N₂ / D := Nat.div_le_div_right hN
  have hs := F64.spacingExp_mono hq
  rw [F64.roundUnits_eq, F64.roundUnits_eq]
  rcases Nat.lt_or_eq_of_le hs with hlt | heq
  · have hA := F64.lt_pow_spacingExp (N₁ / D)
    have hB := F64.pow_spacingExp_le (q := N₂ / D) (by omega)
    generalize F64.spacingExp (N₁ / D) = s₁ at *
    generalize F64.spacingExp (N₂ / D) = s₂ at *
    have hm1 : N₁ / (D * 2 ^ s₁) < 2 ^ 53 := by
      rw [← Nat.div_div_eq_div_mul]
      rw [pow_add] at hA
      exact (Nat.div_lt_iff_lt_mul (by positivity)).2 (by rw [mul_comm]; exact hA)
    have hm2 : 2 ^ 52 ≤ N₂ / (D * 2 ^ s₂) := by
      rw [← Nat.div_div_eq_div_mul]
      rw [pow_add] at hB
      exact (Nat.le_div_iff_mul_le (by positivity)).2 (by rw [mul_comm]; exact hB)
    have hb1 := (F64.nearestEven_bounds N₁ (D * 2 ^ s₁)).2
    have hb2 := (F64.nearestEven_bounds N₂ (D * 2 ^ s₂)).1
    calc F64.nearestEven N₁ (D * 2 ^ s₁) * 2 ^ s₁
        ≤ 2 ^ 53 * 2 ^ s₁ := Nat.mul_le_mul_right _ (by omega)
      _ = 2 ^ 52 * 2 ^ (s₁ + 1) := by rw [pow_succ]; ring
      _ ≤ 2 ^ 52 * 2 ^ s₂ :=
          Nat.mul_le_mul_left _ (Nat.pow_le_pow_right (by decide) (by omega))
      _ ≤ F64.nearestEven N₂ (D * 2 ^ s₂) * 2 ^ s₂ := Nat.mul_le_mul_right _ (by omega)
  · rw [heq]
    exact Nat.mul_le_mul_right _ (F64.nearestEven_mono hN)

theorem F64.le_inf_pos {x : F64} (hx : x ≠ F64.nan) : F64.le x (F64.inf false) = true := by
  cases x with
  | nan => exact absurd rfl hx
  | inf a => cases a <;> rfl
  | fin a k => rfl

theorem F64.inf_neg_le {y : F64} (hy : y ≠ F64.nan) : F64.le (F64.inf true) y = true := by
  cases y with
  | nan => exact absurd rfl hy
  | inf a => cases a <;> rfl
  | fin a k => rfl

/-- Rounding preserves the order of signed magnitudes. -/
theorem F64.round_le_round {n₁ n₂ : Bool} {N₁ N₂ : Nat} (D : Nat)
    (hle : F64.sval n₁ N₁ ≤ F64.sval n₂ N₂) :
    F64.le (F64.round n₁ N₁ D) (F64.round n₂ N₂ D) = true := by
  cases n₁ <;> cases n₂ <;>
    simp only [F64.sval, Bool.false_eq_true, if_false, if_true, Nat.cast_le] at hle
  · have hk := F64.roundUnits_mono D hle
    simp only [F64.round]
    split_ifs with h1 h2 h2
    · simpa [F64.le, F64.sval] using hk
    · rfl
    · omega
    · rfl
  · have h1 : N₁ = 0 := by omega
    have h2 : N₂ = 0 := by omega
    subst h1 h2
    simp [F64.round_zero, F64.le, F64.sval]
  · simp only [F64.round]
    split_ifs
    · simp only [F64.le, F64.sval, Bool.false_eq_true, if_true, if_false, decide_eq_true_eq]
      omega
    · rfl
    · rfl
    · rfl
  · have hle' : N₂ ≤ N₁ := by omega
    have hk := F64.roundUnits_mono D hle'
    simp only [F64.round]
    split_ifs with h1 h2 h2
    · simpa [F64.le, F64.sval] using hk
    · omega
    · rfl
    · rfl

theorem F64.sval_mul (a b : Bool) (j k : Nat) :
    F64.sval (xor a b) (j * k) = F64.sval a j * F64.sval b k := by
  cases a <;> cases b <;> simp [F64.sval]

/-- Multiplication by a finite non-negative double is monotone on finite doubles. -/
theorem F64.mul_le_mul_right {a b pn : Bool} {j k pk : Nat}
    (hxy : F64.le (F64.fin a j) (F64.fin b k) = true)
    (hp : F64.le F64.zero (F64.fin pn pk) = true) :
    F64.le (F64.mul (F64.fin a j) (F64.fin pn pk)) (F64.mul (F64.fin b k) (F64.fin pn pk)) =
      true := by
  simp only [F64.le, F64.zero, decide_eq_true_eq] at hxy hp
  have h0 : (0 : Int) ≤ F64.sval pn pk := by simpa [F64.sval] using hp
  show F64.le (F64.round (xor a pn) (j * pk) F64.one) (F64.round (xor b pn) (k * pk) F64.one) =
    true
  apply F64.round_le_round
  rw [F64.sval_mul, F64.sval_mul]
  exact mul_le_mul_of_nonneg_right hxy h0

theorem F64.div_hundred_fin (a : Bool) (j : Nat) :
    F64.div (F64.fin a j) F64.hundred = F64.round a (j * F64.one) (100 * F64.one) := by
  have h0 : 100 * F64.one ≠ 0 := Nat.mul_ne_zero (by decide) F64.one_pos.ne'
  simp only [F64.div, F64.hundred, if_neg h0, Bool.xor_false]

theorem F64.div_hundred_inf (a : Bool) : F64.div (F64.inf a) F64.hundred = F64.inf a := by
  simp [F64.div, F64.hundred]

theorem F64.div_hundred_ne_nan {x : F64} (hx : x ≠ F64.nan) :
    F64.div x F64.hundred ≠ F64.nan := by
  cases x with
  | nan => exact absurd rfl hx
  | inf a => rw [F64.div_hundred_inf]; simp
  | fin a j => rw [F64.div_hundred_fin]; exact F64.round_ne_nan _ _ _

/-- Division by `100.0` is monotone. -/
theorem F64.div_hundred_mono {x y : F64} (hxy : F64.le x y = true) :
    F64.le (F64.div x F64.hundred) (F64.div y F64.hundred) = true := by
  have hx : x ≠ F64.nan := by rintro rfl; cases y <;> simp [F64.le] at hxy
  have hy : y ≠ F64.nan := by rintro rfl; cases x <;> simp [F64.le] at hxy
  cases x with
  | nan => exact absurd rfl hx
  | inf a =>
    cases a with
    | true => rw [F64.div_hundred_inf]; exact F64.inf_neg_le (F64.div_hundred_ne_nan hy)
    | false =>
      cases y with
      | nan => exact absurd rfl hy
      | inf b =>
        cases b with
        | true => simp [F64.le] at hxy
        | false => simp [F64.div_hundred_inf, F64.le]
      | fin b k => simp [F64.le] at hxy
  | fin a j =>
    cases y with
    | nan => exact absurd rfl hy
    | inf b =>
      cases b with
      | true => simp [F64.le] at hxy
      | false => rw [F64.div_hundred_inf]; exact F64.le_inf_pos (F64.div_hundred_ne_nan hx)
    | fin b k =>
      rw [F64.div_hundred_fin, F64.div_hundred_fin]
      apply F64.round_le_round
      simp only [F64.le, decide_eq_true_eq] at hxy
      have e : ∀ (n : Bool) (i : Nat),
          F64.sval n (i * F64.one) = F64.sval n i * (F64.one : Int) := by
        intro n i
        cases n <;> simp [F64.sval]
      rw [e, e]
      exact mul_le_mul_of_nonneg_right hxy (Int.ofNat_nonneg _)

theorem resolveTarget_fin (base : F64) (ann : Option Int32) (hbase : ∃ n k, base = F64.fin n k) :
    ∃ n k, (resolveTarget base ann).1 = F64.fin n k := by
  cases ann with
  | none => exact hbase
  | some a =>
    rcases resolveTarget_mem base a with h | h
    · rw [h]; exact F64.ofInt32_fin a
    · rw [h]; exact hbase

/-! ## The claims -/

/-- C1, as the code has it: whenever the base target
`cfg.TargetConcurrency(pa.Spec.ContainerConcurrency)` is not NaN, the Decider's
`Spec.TargetConcurrency` is `<=` that base, with or without a target
annotation and whatever its value. -/
theorem C1_target_le_base {μ : Type} (h : Heap) (env : Env μ) (pa : PodAutoscaler)
    (cfg : Config) (svc : String)
    (hbase : env.TargetConcurrency cfg pa.Spec.ContainerConcurrency ≠ F64.nan) :
    F64.le (MakeDecider h env pa cfg svc).decider.Spec.TargetConcurrency
      (env.TargetConcurrency cfg pa.Spec.ContainerConcurrency) = true :=
  resolveTarget_le _ _ hbase

/-- C1 at base 10 with a target annotation of 100. -/
theorem C1_target_le_base_witness :
    (fixedEnv (F64.ofInt 10) (some (Int32.ofInt 100)) none 0).TargetConcurrency sampleConfig
        samplePA.Spec.ContainerConcurrency ≠ F64.nan ∧
    F64.le (MakeDecider sampleHeap (fixedEnv (F64.ofInt 10) (some (Int32.ofInt 100)) none 0)
        samplePA sampleConfig "svc").decider.Spec.TargetConcurrency
      ((fixedEnv (F64.ofInt 10) (some (Int32.ofInt 100)) none 0).TargetConcurrency sampleConfig
        samplePA.Spec.ContainerConcurrency) = true :=
  ⟨by decide, C1_target_le_base sampleHeap _ samplePA sampleConfig "svc" (by decide)⟩

/-- C1 as stated fails when the configuration resolves the base target to NaN:
the annotation 5 is accepted (the test `5 > NaN` is false) and `5 <= NaN` is
false; without annotation the target is NaN itself and `NaN <= NaN` is false. -/
theorem C1_counterexample_nan_base :
    (MakeDecider sampleHeap (fixedEnv F64.nan (some (Int32.ofInt 5)) none 0)
        samplePA sampleConfig "svc").decider.Spec.TargetConcurrency = F64.ofInt 5 ∧
    F64.le (MakeDecider sampleHeap (fixedEnv F64.nan (some (Int32.ofInt 5)) none 0)
        samplePA sampleConfig "svc").decider.Spec.TargetConcurrency
      ((fixedEnv F64.nan (some (Int32.ofInt 5)) none 0).TargetConcurrency sampleConfig
        samplePA.Spec.ContainerConcurrency) = false ∧
    F64.le (MakeDecider sampleHeap (fixedEnv F64.nan none none 0)
        samplePA sampleConfig "svc").decider.Spec.TargetConcurrency
      ((fixedEnv F64.nan none none 0).TargetConcurrency sampleConfig
        samplePA.Spec.ContainerConcurrency) = false := by
  decide

/-- C2: when the PA carries a target annotation `a` with `a > base`, the
annotation is ignored and the Decider's `Spec.TargetConcurrency` is `base`. -/
theorem C2_annotation_above_base_ignored {μ : Type} (h : Heap) (env : Env μ)
    (pa : PodAutoscaler) (cfg : Config) (svc : String) (a : Int32)
    (hann : env.Target h pa = some a)
    (hgt : F64.gt (F64.ofInt32 a)
      (env.TargetConcurrency cfg pa.Spec.ContainerConcurrency) = true) :
    (MakeDecider h env pa cfg svc).decider.Spec.TargetConcurrency =
      env.TargetConcurrency cfg pa.Spec.ContainerConcurrency := by
  show (resolveTarget _ (env.Target h pa)).1 = _
  rw [hann]
  exact resolveTarget_rejected _ a hgt

/-- C2 at the scenario "annotation 100, base 10": the target is 10. -/
theorem C2_annotation_above_base_ignored_witness :
    (MakeDecider sampleHeap (fixedEnv (F64.ofInt 10) (some (Int32.ofInt 100)) none 0)
        samplePA sampleConfig "svc").decider.Spec.TargetConcurrency = F64.ofInt 10 :=
  C2_annotation_above_base_ignored sampleHeap
    (fixedEnv (F64.ofInt 10) (some (Int32.ofInt 100)) none 0) samplePA sampleConfig "svc"
    (Int32.ofInt 100) rfl (by decide)

/-- C3: when the PA carries a target annotation `a` with `a <= base`
(the boundary `a = base` included), the Decider's `Spec.TargetConcurrency` is
`float64(a)`. -/
theorem C3_annotation_at_most_base_used {μ : Type} (h : Heap) (env : Env μ)
    (pa : PodAutoscaler) (cfg : Config) (svc : String) (a : Int32)
    (hann : env.Target h pa = some a)
    (hle : F64.le (F64.ofInt32 a)
      (env.TargetConcurrency cfg pa.Spec.ContainerConcurrency) = true) :
    (MakeDecider h env pa cfg svc).decider.Spec.TargetConcurrency = F64.ofInt32 a := by
  show (resolveTarget _ (env.Target h pa)).1 = _
  rw [hann]
  exact resolveTarget_accepted _ a (F64.gt_eq_false_of_le hle)

/-- C3 at the boundary scenario "annotation 10, base 10": the target is 10. -/
theorem C3_annotation_at_most_base_used_witness :
    (MakeDecider sampleHeap (fixedEnv (F64.ofInt 10) (some (Int32.ofInt 10)) none 0)
        samplePA sampleConfig "svc").decider.Spec.TargetConcurrency =
      F64.ofInt32 (Int32.ofInt 10) :=
  C3_annotation_at_most_base_used sampleHeap
    (fixedEnv (F64.ofInt 10) (some (Int32.ofInt 10)) none 0) samplePA sampleConfig "svc"
    (Int32.ofInt 10) rfl (by decide)

/-- C4: when the PA carries no target annotation, the Decider's
`Spec.TargetConcurrency` is exactly `cfg.TargetConcurrency(pa.Spec.ContainerConcurrency)`,
for every container concurrency (zero is not treated apart). -/
theorem C4_no_annotation_uses_base {μ : Type} (h : Heap) (env : Env μ)
    (pa : PodAutoscaler) (cfg : Config) (svc : String)
    (hann : env.Target h pa = none) :
    (MakeDecider h env pa cfg svc).decider.Spec.TargetConcurrency =
      env.TargetConcurrency cfg pa.Spec.ContainerConcurrency := by
  show (resolveTarget _ (env.Target h pa)).1 = _
  rw [hann]
  rfl

/-- C4 at the scenario "no annotations, base 10": the target is 10. -/
theorem C4_no_annotation_uses_base_witness :
    (MakeDecider sampleHeap (fixedEnv (F64.ofInt 10) none none 0)
        samplePA sampleConfig "svc").decider.Spec.TargetConcurrency = F64.ofInt 10 :=
  C4_no_annotation_uses_base sampleHeap (fixedEnv (F64.ofInt 10) none none 0) samplePA
    sampleConfig "svc" rfl

/-- C5: the Decider's `Spec.PanicThreshold` is the float64 expression
`Spec.TargetConcurrency * p / 100.0`, where `p` is the PA's
panic-threshold-percentage annotation when present and
`cfg.PanicThresholdPercentage` otherwise, with nothing applied on top.
With target 10 and cluster value 200, the annotation 150 gives 15 and no
annotation gives 20. -/
theorem C5_panic_threshold_formula :
    (∀ (μ : Type) (h : Heap) (env : Env μ) (pa : PodAutoscaler) (cfg : Config) (svc : String),
      (MakeDecider h env pa cfg svc).decider.Spec.PanicThreshold =
        F64.div
          (F64.mul (MakeDecider h env pa cfg svc).decider.Spec.TargetConcurrency
            ((env.PanicThresholdPercentage h pa).getD cfg.PanicThresholdPercentage))
          F64.hundred) ∧
    (MakeDecider sampleHeap (fixedEnv (F64.ofInt 10) none (some (F64.ofInt 150)) 0)
        samplePA sampleConfig "svc").decider.Spec.PanicThreshold = F64.ofInt 15 ∧
    (MakeDecider sampleHeap (fixedEnv (F64.ofInt 10) none none 0)
        samplePA sampleConfig "svc").decider.Spec.PanicThreshold = F64.ofInt 20 :=
  ⟨fun _ h env pa cfg svc => MakeDecider_panicThreshold h env pa cfg svc, by decide, by decide⟩

/-- C6, as the code has it: when the effective panic threshold percentage
(annotation if present, else `cfg.PanicThresholdPercentage`) is at least 101
and the Decider's `Spec.TargetConcurrency` is a positive normal finite
float64 (`2^-1022 <= target < +Inf`), then `Spec.PanicThreshold >
Spec.TargetConcurrency`. -/
theorem C6_panic_threshold_above_target {μ : Type} (h : Heap) (env : Env μ)
    (pa : PodAutoscaler) (cfg : Config) (svc : String)
    (hp : F64.le (F64.ofInt 101)
      ((env.PanicThresholdPercentage h pa).getD cfg.PanicThresholdPercentage) = true)
    (hlo : F64.le F64.minNormal
      (MakeDecider h env pa cfg svc).decider.Spec.TargetConcurrency = true)
    (hhi : F64.lt (MakeDecider h env pa cfg svc).decider.Spec.TargetConcurrency
      (F64.inf false) = true) :
    F64.gt (MakeDecider h env pa cfg svc).decider.Spec.PanicThreshold
      (MakeDecider h env pa cfg svc).decider.Spec.TargetConcurrency = true := by
  rw [MakeDecider_panicThreshold]
  obtain ⟨j, hj, hj52⟩ := F64.pos_normal_of_le hlo hhi
  rw [hj]
  rcases F64.pct_of_le hp with hinf | ⟨k, hk, hk101⟩
  · rw [hinf]
    have hj0 : j ≠ 0 := by
      have : 0 < 2 ^ 52 := by positivity
      omega
    simp [F64.gt, F64.mul, F64.div, F64.hundred, F64.lt, hj0]
  · rw [hk]
    exact F64.lt_mul_div_hundred hj52 hk101

/-- C6 at the scenario "no annotations, base 10, cluster percentage 200":
the threshold 20 is above the target 10. -/
theorem C6_panic_threshold_above_target_witness :
    F64.gt (MakeDecider sampleHeap (fixedEnv (F64.ofInt 10) none none 0) samplePA sampleConfig
        "svc").decider.Spec.PanicThreshold
      (MakeDecider sampleHeap (fixedEnv (F64.ofInt 10) none none 0) samplePA sampleConfig
        "svc").decider.Spec.TargetConcurrency = true :=
  C6_panic_threshold_above_target sampleHeap (fixedEnv (F64.ofInt 10) none none 0) samplePA
    sampleConfig "svc" (by decide) (by decide) (by decide)

/-- C6 as stated fails. With percentage 200 and a base target of 0 the
threshold is 0, not above the target. With a negative target (annotation -3)
the threshold -6 is below the target. With the smallest percentage above 100
(`100 + 2^-46`) and the target `1 + 2^-50` the two roundings give the target
back. With percentage 101 and the smallest subnormal target the quotient
rounds to the target. -/
theorem C6_counterexample :
    (F64.gt (F64.ofInt 200) F64.hundred = true ∧
      F64.gt (MakeDecider sampleHeap (fixedEnv F64.zero none none 0) samplePA sampleConfig
          "svc").decider.Spec.PanicThreshold
        (MakeDecider sampleHeap (fixedEnv F64.zero none none 0) samplePA sampleConfig
          "svc").decider.Spec.TargetConcurrency = false) ∧
    (MakeDecider sampleHeap (fixedEnv (F64.ofInt 10) (some (Int32.ofInt (-3))) none 0) samplePA
        sampleConfig "svc").decider.Spec.TargetConcurrency = F64.ofInt (-3) ∧
    (MakeDecider sampleHeap (fixedEnv (F64.ofInt 10) (some (Int32.ofInt (-3))) none 0) samplePA
        sampleConfig "svc").decider.Spec.PanicThreshold = F64.ofInt (-6) ∧
    (F64.gt (F64.fin false ((100 * 2 ^ 46 + 1) * 2 ^ 1028)) F64.hundred = true ∧
      (MakeDecider sampleHeap
          (fixedEnv (F64.fin false ((2 ^ 52 + 4) * 2 ^ 1022)) none
            (some (F64.fin false ((100 * 2 ^ 46 + 1) * 2 ^ 1028))) 0)
          samplePA sampleConfig "svc").decider.Spec.PanicThreshold =
        F64.fin false ((2 ^ 52 + 4) * 2 ^ 1022)) ∧
    (MakeDecider sampleHeap (fixedEnv (F64.fin false 1) none (some (F64.ofInt 101)) 0)
        samplePA sampleConfig "svc").decider.Spec.PanicThreshold = F64.fin false 1 := by
  decide

/-- C7, as the code has it: when the PA carries a target annotation `a` that is
zero or negative and the base target is not below zero, the test `a > base`
is false and the annotation is accepted: the Decider's
`Spec.TargetConcurrency` is `float64(a)`; no lower bound is applied to `a`. -/
theorem C7_nonpositive_annotation_accepted {μ : Type} (h : Heap) (env : Env μ)
    (pa : PodAutoscaler) (cfg : Config) (svc : String) (a : Int32)
    (hann : env.Target h pa = some a) (ha : a.val ≤ 0)
    (hbase : F64.lt (env.TargetConcurrency cfg pa.Spec.ContainerConcurrency) F64.zero = false) :
    F64.gt (F64.ofInt32 a) (env.TargetConcurrency cfg pa.Spec.ContainerConcurrency) = false ∧
    (MakeDecider h env pa cfg svc).decider.Spec.TargetConcurrency = F64.ofInt32 a := by
  have hgt := F64.gt_eq_false_of_le_zero (F64.ofInt_le_zero ha) hbase
  refine ⟨hgt, ?_⟩
  show (resolveTarget _ (env.Target h pa)).1 = _
  rw [hann]
  exact resolveTarget_accepted _ a hgt

/-- C7 at annotation `-3` with base 10: the target is `-3`. -/
theorem C7_nonpositive_annotation_accepted_witness :
    F64.gt (F64.ofInt32 (Int32.ofInt (-3))) (F64.ofInt 10) = false ∧
    (MakeDecider sampleHeap (fixedEnv (F64.ofInt 10) (some (Int32.ofInt (-3))) none 0)
        samplePA sampleConfig "svc").decider.Spec.TargetConcurrency =
      F64.ofInt32 (Int32.ofInt (-3)) :=
  C7_nonpositive_annotation_accepted sampleHeap
    (fixedEnv (F64.ofInt 10) (some (Int32.ofInt (-3))) none 0) samplePA sampleConfig "svc"
    (Int32.ofInt (-3)) rfl (by decide) (by decide)

/-- C7 as stated fails when the base target is negative: with annotation `-1`
and base `-2` the test `-1 > -2` is true, the annotation is rejected and the
target is `-2`, not `-1`. -/
theorem C7_counterexample_negative_base :
    F64.gt (F64.ofInt32 (Int32.ofInt (-1))) (F64.ofInt (-2)) = true ∧
    (MakeDecider sampleHeap (fixedEnv (F64.ofInt (-2)) (some (Int32.ofInt (-1))) none 0)
        samplePA sampleConfig "svc").decider.Spec.TargetConcurrency = F64.ofInt (-2) ∧
    (MakeDecider sampleHeap (fixedEnv (F64.ofInt (-2)) (some (Int32.ofInt (-1))) none 0)
        samplePA sampleConfig "svc").decider.Spec.TargetConcurrency ≠
      F64.ofInt32 (Int32.ofInt (-1)) := by
  decide

/-- C8: the Decider's `Spec.TickInterval` is `cfg.TickInterval`, its
`Spec.MaxScaleUpRate` is `cfg.MaxScaleUpRate` and its `Spec.ServiceName` is
the `svc` argument, for every PA. -/
theorem C8_config_fields_copied {μ : Type} (h : Heap) (env : Env μ) (pa : PodAutoscaler)
    (cfg : Config) (svc : String) :
    (MakeDecider h env pa cfg svc).decider.Spec.TickInterval = cfg.TickInterval ∧
    (MakeDecider h env pa cfg svc).decider.Spec.MaxScaleUpRate = cfg.MaxScaleUpRate ∧
    (MakeDecider h env pa cfg svc).decider.Spec.ServiceName = svc :=
  ⟨rfl, rfl, rfl⟩

/-- C9: the Decider's `Spec.MetricSpec` is the `Spec` of the value returned by
`MakeMetric(ctx, pa, cfg)`, whatever that value is. -/
theorem C9_metric_spec_verbatim {μ : Type} (h : Heap) (env : Env μ) (pa : PodAutoscaler)
    (cfg : Config) (svc : String) :
    (MakeDecider h env pa cfg svc).decider.Spec.MetricSpec = (env.MakeMetric h pa cfg).Spec :=
  rfl

/-- C10: for a PA whose metadata references are allocated, the Decider's
`ObjectMeta` denotes the same value as `pa.ObjectMeta` (namespace, name,
labels, annotations, owner references), and the call leaves the PA as it
was: its metadata denotes the same value after the call and every object
that existed before the call is unchanged. -/
theorem C10_object_meta_copied {μ : Type} (h : Heap) (env : Env μ) (pa : PodAutoscaler)
    (cfg : Config) (svc : String) (hv : h.valid pa.ObjectMeta) :
    (MakeDecider h env pa cfg svc).heap.view (MakeDecider h env pa cfg svc).decider.ObjectMeta =
      h.view pa.ObjectMeta ∧
    (MakeDecider h env pa cfg svc).heap.view pa.ObjectMeta = h.view pa.ObjectMeta ∧
    h.maps <+: (MakeDecider h env pa cfg svc).heap.maps ∧
    h.slices <+: (MakeDecider h env pa cfg svc).heap.slices :=
  ⟨ObjectMeta.DeepCopy_view h pa.ObjectMeta hv,
    Heap.view_of_prefix (ObjectMeta.DeepCopy_maps h _) (ObjectMeta.DeepCopy_slices h _) hv,
    ObjectMeta.DeepCopy_maps h _, ObjectMeta.DeepCopy_slices h _⟩

/-- C10 on the sample heap: the Decider's metadata reads back as the PA's. -/
theorem C10_object_meta_copied_witness :
    sampleHeap.valid samplePA.ObjectMeta ∧
    (MakeDecider sampleHeap (fixedEnv (F64.ofInt 10) none none 0) samplePA sampleConfig
        "svc").heap.view
      (MakeDecider sampleHeap (fixedEnv (F64.ofInt 10) none none 0) samplePA sampleConfig
        "svc").decider.ObjectMeta = sampleHeap.view samplePA.ObjectMeta :=
  ⟨by decide,
    (C10_object_meta_copied sampleHeap (fixedEnv (F64.ofInt 10) none none 0) samplePA
      sampleConfig "svc" (by decide)).1⟩

/-- C11: for a PA whose metadata references are allocated, the Decider's
metadata shares no map or slice with the PA's. After `MakeDecider` returns, a
write through the PA's labels or annotations map, or through its
owner-reference slice, leaves what the Decider's metadata denotes unchanged;
and a write through the Decider's maps or slice leaves what the PA's metadata
denotes unchanged. -/
theorem C11_metadata_not_shared {μ : Type} (h : Heap) (env : Env μ) (pa : PodAutoscaler)
    (cfg : Config) (svc : String) (hv : h.valid pa.ObjectMeta) :
    (∀ a c, (pa.ObjectMeta.Labels = some a ∨ pa.ObjectMeta.Annotations = some a) →
      ((MakeDecider h env pa cfg svc).heap.writeMap a c).view
          (MakeDecider h env pa cfg svc).decider.ObjectMeta =
        (MakeDecider h env pa cfg svc).heap.view
          (MakeDecider h env pa cfg svc).decider.ObjectMeta) ∧
    (∀ a s, pa.ObjectMeta.OwnerReferences = some a →
      ((MakeDecider h env pa cfg svc).heap.writeSlice a s).view
          (MakeDecider h env pa cfg svc).decider.ObjectMeta =
        (MakeDecider h env pa cfg svc).heap.view
          (MakeDecider h env pa cfg svc).decider.ObjectMeta) ∧
    (∀ a c, ((MakeDecider h env pa cfg svc).decider.ObjectMeta.Labels = some a ∨
        (MakeDecider h env pa cfg svc).decider.ObjectMeta.Annotations = some a) →
      ((MakeDecider h env pa cfg svc).heap.writeMap a c).view pa.ObjectMeta =
        (MakeDecider h env pa cfg svc).heap.view pa.ObjectMeta) ∧
    (∀ a s, (MakeDecider h env pa cfg svc).decider.ObjectMeta.OwnerReferences = some a →
      ((MakeDecider h env pa cfg svc).heap.writeSlice a s).view pa.ObjectMeta =
        (MakeDecider h env pa cfg svc).heap.view pa.ObjectMeta) := by
  obtain ⟨fl, fa, fo⟩ := ObjectMeta.DeepCopy_fresh h pa.ObjectMeta
  obtain ⟨vl, va, vo⟩ := hv
  refine ⟨fun a c ha => ?_, fun a s ha => ?_, fun a c ha => ?_, fun a s ha => ?_⟩
  · have hlt : a < h.maps.length := by
      rcases ha with ha | ha
      · exact vl a ha
      · exact va a ha
    refine Heap.view_writeMap _ (fun e => ?_) (fun e => ?_) c
    · exact absurd (fl a e) (by omega)
    · exact absurd (fa a e) (by omega)
  · have hlt : a < h.slices.length := vo a ha
    exact Heap.view_writeSlice _ (fun e => absurd (fo a e) (by omega)) s
  · have hge : h.maps.length ≤ a := by
      rcases ha with ha | ha
      · exact fl a ha
      · exact fa a ha
    refine Heap.view_writeMap _ (fun e => ?_) (fun e => ?_) c
    · exact absurd (vl a e) (by omega)
    · exact absurd (va a e) (by omega)
  · have hge : h.slices.length ≤ a := fo a ha
    exact Heap.view_writeSlice _ (fun e => absurd (vo a e) (by omega)) s

/-- C11 on the sample heap: after the call, setting the label `app` on the
PA leaves the Decider's metadata reading as before. -/
theorem C11_metadata_not_shared_witness :
    sampleHeap.valid samplePA.ObjectMeta ∧
    ((MakeDecider sampleHeap (fixedEnv (F64.ofInt 10) none none 0) samplePA sampleConfig
        "svc").heap.setMapEntry 0 "app" "changed").view
      (MakeDecider sampleHeap (fixedEnv (F64.ofInt 10) none none 0) samplePA sampleConfig
        "svc").decider.ObjectMeta =
    (MakeDecider sampleHeap (fixedEnv (F64.ofInt 10) none none 0) samplePA sampleConfig
        "svc").heap.view
      (MakeDecider sampleHeap (fixedEnv (F64.ofInt 10) none none 0) samplePA sampleConfig
        "svc").decider.ObjectMeta :=
  ⟨by decide,
    (C11_metadata_not_shared sampleHeap (fixedEnv (F64.ofInt 10) none none 0) samplePA
      sampleConfig "svc" (by decide)).1 0 _ (Or.inl rfl)⟩

/-- C12: two invocations of `MakeDecider` with the same PA, config and service
name, on heaps where the PA's metadata is allocated and denotes the same
value, and with the collaborators returning the same results, return
Deciders with equal spec fields and metadata of equal value, and emit the
same log records. -/
theorem C12_deterministic {μ : Type} (h₁ h₂ : Heap) (env₁ env₂ : Env μ) (pa : PodAutoscaler)
    (cfg : Config) (svc : String)
    (hv₁ : h₁.valid pa.ObjectMeta) (hv₂ : h₂.valid pa.ObjectMeta)
    (hview : h₁.view pa.ObjectMeta = h₂.view pa.ObjectMeta)
    (hbase : env₁.TargetConcurrency cfg pa.Spec.ContainerConcurrency =
      env₂.TargetConcurrency cfg pa.Spec.ContainerConcurrency)
    (htarget : env₁.Target h₁ pa = env₂.Target h₂ pa)
    (hpct : env₁.PanicThresholdPercentage h₁ pa = env₂.PanicThresholdPercentage h₂ pa)
    (hmetric : (env₁.MakeMetric h₁ pa cfg).Spec = (env₂.MakeMetric h₂ pa cfg).Spec) :
    (MakeDecider h₁ env₁ pa cfg svc).decider.Spec =
      (MakeDecider h₂ env₂ pa cfg svc).decider.Spec ∧
    (MakeDecider h₁ env₁ pa cfg svc).heap.view
        (MakeDecider h₁ env₁ pa cfg svc).decider.ObjectMeta =
      (MakeDecider h₂ env₂ pa cfg svc).heap.view
        (MakeDecider h₂ env₂ pa cfg svc).decider.ObjectMeta ∧
    (MakeDecider h₁ env₁ pa cfg svc).log = (MakeDecider h₂ env₂ pa cfg svc).log := by
  refine ⟨?_, ?_, ?_⟩
  · simp only [MakeDecider, hbase, htarget, hpct, hmetric]
  · exact (ObjectMeta.DeepCopy_view h₁ _ hv₁).trans
      (hview.trans (ObjectMeta.DeepCopy_view h₂ _ hv₂).symm)
  · simp only [MakeDecider, hbase, htarget]

/-- C12 on the sample inputs, the second invocation running on the heap the
first one left behind: same spec, same metadata value, same log. -/
theorem C12_deterministic_witness :
    (MakeDecider sampleHeap (fixedEnv (F64.ofInt 10) (some (Int32.ofInt 5)) none 0) samplePA
        sampleConfig "svc").decider.Spec =
      (MakeDecider
        (MakeDecider sampleHeap (fixedEnv (F64.ofInt 10) (some (Int32.ofInt 5)) none 0)
          samplePA sampleConfig "svc").heap
        (fixedEnv (F64.ofInt 10) (some (Int32.ofInt 5)) none 0) samplePA sampleConfig
        "svc").decider.Spec ∧
    (MakeDecider sampleHeap (fixedEnv (F64.ofInt 10) (some (Int32.ofInt 5)) none 0) samplePA
        sampleConfig "svc").decider.ObjectMeta ≠
      (MakeDecider
        (MakeDecider sampleHeap (fixedEnv (F64.ofInt 10) (some (Int32.ofInt 5)) none 0)
          samplePA sampleConfig "svc").heap
        (fixedEnv (F64.ofInt 10) (some (Int32.ofInt 5)) none 0) samplePA sampleConfig
        "svc").decider.ObjectMeta :=
  ⟨(C12_deterministic sampleHeap _ (fixedEnv (F64.ofInt 10) (some (Int32.ofInt 5)) none 0)
      (fixedEnv (F64.ofInt 10) (some (Int32.ofInt 5)) none 0) samplePA sampleConfig "svc"
      (by decide) (by decide) (by decide) rfl rfl rfl rfl).1,
    by decide⟩

/-- C13: the log records of `MakeDecider` follow the target annotation. With
an annotation `a > base` there is exactly one record, a warning carrying `a`;
with an annotation `a <= base` there is exactly one record, a debug trace
carrying `a`; without annotation there is no record. -/
theorem C13_log_records {μ : Type} (h : Heap) (env : Env μ) (pa : PodAutoscaler)
    (cfg : Config) (svc : String) :
    (∀ a, env.Target h pa = some a →
      F64.gt (F64.ofInt32 a) (env.TargetConcurrency cfg pa.Spec.ContainerConcurrency) = true →
      (MakeDecider h env pa cfg svc).log =
        [LogEvent.Warnf "Ignoring target of %v because it would underprovision the Revision."
          (F64.ofInt32 a)]) ∧
    (∀ a, env.Target h pa = some a →
      F64.le (F64.ofInt32 a) (env.TargetConcurrency cfg pa.Spec.ContainerConcurrency) = true →
      (MakeDecider h env pa cfg svc).log =
        [LogEvent.Debugf "Using target of %v" (F64.ofInt32 a)]) ∧
    (env.Target h pa = none → (MakeDecider h env pa cfg svc).log = []) := by
  refine ⟨fun a ha hgt => ?_, fun a ha hle => ?_, fun ha => ?_⟩
  · show (resolveTarget _ (env.Target h pa)).2 = _
    rw [ha]
    simp [resolveTarget, hgt]
  · show (resolveTarget _ (env.Target h pa)).2 = _
    rw [ha]
    simp [resolveTarget, F64.gt_eq_false_of_le hle]
  · show (resolveTarget _ (env.Target h pa)).2 = _
    rw [ha]
    rfl

/-- C13 at the three scenarios with base 10: annotation 100 (one warning),
annotation 5 (one debug trace), no annotation (nothing). -/
theorem C13_log_records_witness :
    (MakeDecider sampleHeap (fixedEnv (F64.ofInt 10) (some (Int32.ofInt 100)) none 0) samplePA
        sampleConfig "svc").log =
      [LogEvent.Warnf "Ignoring target of %v because it would underprovision the Revision."
        (F64.ofInt32 (Int32.ofInt 100))] ∧
    (MakeDecider sampleHeap (fixedEnv (F64.ofInt 10) (some (Int32.ofInt 5)) none 0) samplePA
        sampleConfig "svc").log =
      [LogEvent.Debugf "Using target of %v" (F64.ofInt32 (Int32.ofInt 5))] ∧
    (MakeDecider sampleHeap (fixedEnv (F64.ofInt 10) none none 0) samplePA sampleConfig
        "svc").log = [] :=
  ⟨(C13_log_records sampleHeap (fixedEnv (F64.ofInt 10) (some (Int32.ofInt 100)) none 0)
      samplePA sampleConfig "svc").1 _ rfl (by decide),
    (C13_log_records sampleHeap (fixedEnv (F64.ofInt 10) (some (Int32.ofInt 5)) none 0)
      samplePA sampleConfig "svc").2.1 _ rfl (by decide),
    (C13_log_records sampleHeap (fixedEnv (F64.ofInt 10) none none 0) samplePA sampleConfig
      "svc").2.2 rfl⟩

/-- C14, as the code has it: when the PA carries a target annotation `a`, the
Decider's `Spec.TargetConcurrency` is one of `float64(a)` and `base`; it is
`min(a, base)` whenever `base` is not NaN; and for a fixed base it does not
decrease when the annotation grows. -/
theorem C14_target_is_min {μ : Type} (h : Heap) (env : Env μ) (pa : PodAutoscaler)
    (cfg : Config) (svc : String) (a : Int32) (hann : env.Target h pa = some a) :
    (env.TargetConcurrency cfg pa.Spec.ContainerConcurrency ≠ F64.nan →
      (MakeDecider h env pa cfg svc).decider.Spec.TargetConcurrency =
        F64.min (F64.ofInt32 a) (env.TargetConcurrency cfg pa.Spec.ContainerConcurrency)) ∧
    ((MakeDecider h env pa cfg svc).decider.Spec.TargetConcurrency = F64.ofInt32 a ∨
      (MakeDecider h env pa cfg svc).decider.Spec.TargetConcurrency =
        env.TargetConcurrency cfg pa.Spec.ContainerConcurrency) ∧
    (∀ (h' : Heap) (env' : Env μ) (pa' : PodAutoscaler) (a' : Int32),
      env'.Target h' pa' = some a' →
      env'.TargetConcurrency cfg pa'.Spec.ContainerConcurrency =
        env.TargetConcurrency cfg pa.Spec.ContainerConcurrency →
      a.val ≤ a'.val →
      F64.le (MakeDecider h env pa cfg svc).decider.Spec.TargetConcurrency
        (MakeDecider h' env' pa' cfg svc).decider.Spec.TargetConcurrency = true) := by
  refine ⟨fun hbase => ?_, ?_, fun h' env' pa' a' hann' hb hle => ?_⟩
  · show (resolveTarget _ (env.Target h pa)).1 = _
    rw [hann]
    exact resolveTarget_eq_min _ a hbase
  · show (resolveTarget _ (env.Target h pa)).1 = _ ∨ (resolveTarget _ (env.Target h pa)).1 = _
    rw [hann]
    exact resolveTarget_mem _ a
  · show F64.le (resolveTarget _ (env.Target h pa)).1
      (resolveTarget _ (env'.Target h' pa')).1 = true
    rw [hann, hann', hb]
    exact resolveTarget_mono _ hle

/-- C14 at base 10: annotation 5 gives `min(5, 10) = 5`, and raising the
annotation to 100 does not lower the target. -/
theorem C14_target_is_min_witness :
    (MakeDecider sampleHeap (fixedEnv (F64.ofInt 10) (some (Int32.ofInt 5)) none 0) samplePA
        sampleConfig "svc").decider.Spec.TargetConcurrency =
      F64.min (F64.ofInt32 (Int32.ofInt 5)) (F64.ofInt 10) ∧
    F64.le
      (MakeDecider sampleHeap (fixedEnv (F64.ofInt 10) (some (Int32.ofInt 5)) none 0) samplePA
        sampleConfig "svc").decider.Spec.TargetConcurrency
      (MakeDecider sampleHeap (fixedEnv (F64.ofInt 10) (some (Int32.ofInt 100)) none 0)
        samplePA sampleConfig "svc").decider.Spec.TargetConcurrency = true :=
  ⟨(C14_target_is_min sampleHeap (fixedEnv (F64.ofInt 10) (some (Int32.ofInt 5)) none 0)
      samplePA sampleConfig "svc" (Int32.ofInt 5) rfl).1 (by decide),
    (C14_target_is_min sampleHeap (fixedEnv (F64.ofInt 10) (some (Int32.ofInt 5)) none 0)
      samplePA sampleConfig "svc" (Int32.ofInt 5) rfl).2.2 sampleHeap
      (fixedEnv (F64.ofInt 10) (some (Int32.ofInt 100)) none 0) samplePA (Int32.ofInt 100)
      rfl rfl (by decide)⟩

/-- C14 as stated fails when the base target is NaN: with annotation 5 the
test `5 > NaN` is false, the target is 5, and `min(5, NaN)` is NaN. -/
theorem C14_counterexample_nan_base :
    (MakeDecider sampleHeap (fixedEnv F64.nan (some (Int32.ofInt 5)) none 0) samplePA
        sampleConfig "svc").decider.Spec.TargetConcurrency = F64.ofInt 5 ∧
    F64.min (F64.ofInt32 (Int32.ofInt 5)) F64.nan = F64.nan ∧
    (MakeDecider sampleHeap (fixedEnv F64.nan (some (Int32.ofInt 5)) none 0) samplePA
        sampleConfig "svc").decider.Spec.TargetConcurrency ≠
      F64.min (F64.ofInt32 (Int32.ofInt 5)) F64.nan := by
  decide

/-- C15, as the code has it: when the base target is finite and the effective
panic threshold percentage `p` (annotation if present, else
`cfg.PanicThresholdPercentage`) is finite and non-negative, the Decider's
`Spec.PanicThreshold` is `<= base * p / 100.0`: a target annotation never
raises the panic threshold above the one derived from the base. -/
theorem C15_panic_threshold_le_base_threshold {μ : Type} (h : Heap) (env : Env μ)
    (pa : PodAutoscaler) (cfg : Config) (svc : String) (bn pn : Bool) (bk pk : Nat)
    (hbase : env.TargetConcurrency cfg pa.Spec.ContainerConcurrency = F64.fin bn bk)
    (hp : (env.PanicThresholdPercentage h pa).getD cfg.PanicThresholdPercentage =
      F64.fin pn pk)
    (hp0 : F64.le F64.zero (F64.fin pn pk) = true) :
    F64.le (MakeDecider h env pa cfg svc).decider.Spec.PanicThreshold
      (F64.div
        (F64.mul (env.TargetConcurrency cfg pa.Spec.ContainerConcurrency)
          ((env.PanicThresholdPercentage h pa).getD cfg.PanicThresholdPercentage))
        F64.hundred) = true := by
  rw [MakeDecider_panicThreshold, hp]
  have hle : F64.le (MakeDecider h env pa cfg svc).decider.Spec.TargetConcurrency
      (env.TargetConcurrency cfg pa.Spec.ContainerConcurrency) = true :=
    resolveTarget_le _ _ (by rw [hbase]; simp)
  obtain ⟨tn, tk, ht⟩ : ∃ n k,
      (MakeDecider h env pa cfg svc).decider.Spec.TargetConcurrency = F64.fin n k :=
    resolveTarget_fin _ _ ⟨bn, bk, hbase⟩
  rw [ht, hbase] at hle ⊢
  exact F64.div_hundred_mono (F64.mul_le_mul_right hle hp0)

/-- C15 at base 10, annotation 5 and percentage 200: threshold 10 is at most 20. -/
theorem C15_panic_threshold_le_base_threshold_witness :
    (MakeDecider sampleHeap (fixedEnv (F64.ofInt 10) (some (Int32.ofInt 5)) none 0) samplePA
        sampleConfig "svc").decider.Spec.PanicThreshold = F64.ofInt 10 ∧
    F64.le (MakeDecider sampleHeap (fixedEnv (F64.ofInt 10) (some (Int32.ofInt 5)) none 0)
        samplePA sampleConfig "svc").decider.Spec.PanicThreshold
      (F64.div (F64.mul (F64.ofInt 10) (F64.ofInt 200)) F64.hundred) = true :=
  ⟨by decide,
    C15_panic_threshold_le_base_threshold sampleHeap
      (fixedEnv (F64.ofInt 10) (some (Int32.ofInt 5)) none 0) samplePA sampleConfig "svc"
      false false (10 * F64.one) (200 * F64.one) (by decide) (by decide) (by decide)⟩

/-- C15 as stated fails in three ways. With a NaN base and annotation 5 the
threshold is 10 and the bound is NaN. With base `+Inf`, annotation 5 and
percentage 0 the threshold is 0 and the bound `Inf * 0 / 100` is NaN. With
base 10, annotation 0 and percentage `+Inf` the threshold `0 * Inf / 100` is
NaN and the bound is `+Inf`. In each case `threshold <= bound` is false and
the percentage is non-negative. -/
theorem C15_counterexample :
    (F64.le F64.zero (F64.ofInt 200) = true ∧
      F64.le (MakeDecider sampleHeap (fixedEnv F64.nan (some (Int32.ofInt 5)) none 0) samplePA
          sampleConfig "svc").decider.Spec.PanicThreshold
        (F64.div (F64.mul F64.nan (F64.ofInt 200)) F64.hundred) = false) ∧
    (F64.le F64.zero F64.zero = true ∧
      F64.le (MakeDecider sampleHeap
          (fixedEnv (F64.inf false) (some (Int32.ofInt 5)) (some F64.zero) 0) samplePA
          sampleConfig "svc").decider.Spec.PanicThreshold
        (F64.div (F64.mul (F64.inf false) F64.zero) F64.hundred) = false) ∧
    (F64.le F64.zero (F64.inf false) = true ∧
      F64.le (MakeDecider sampleHeap
          (fixedEnv (F64.ofInt 10) (some (Int32.ofInt 0)) (some (F64.inf false)) 0) samplePA
          sampleConfig "svc").decider.Spec.PanicThreshold
        (F64.div (F64.mul (F64.ofInt 10) (F64.inf false)) F64.hundred) = false) := by
  decide

/-- C16: when the PA carries a target annotation of 0 and the base target is
non-negative, then for every finite panic threshold percentage the Decider's
`Spec.TargetConcurrency` is `+0` and its `Spec.PanicThreshold` is a zero
(with the sign of the percentage), so both equal 0 and the threshold does
not exceed the target, whatever the percentage. -/
theorem C16_zero_annotation_zero_threshold {μ : Type} (h : Heap) (env : Env μ)
    (pa : PodAutoscaler) (cfg : Config) (svc : String) (a : Int32) (neg : Bool) (k : Nat)
    (hann : env.Target h pa = some a) (ha : a.val = 0)
    (hbase : F64.le F64.zero (env.TargetConcurrency cfg pa.Spec.ContainerConcurrency) = true)
    (hp : (env.PanicThresholdPercentage h pa).getD cfg.PanicThresholdPercentage =
      F64.fin neg k) :
    (MakeDecider h env pa cfg svc).decider.Spec.TargetConcurrency = F64.zero ∧
    (MakeDecider h env pa cfg svc).decider.Spec.PanicThreshold = F64.fin neg 0 ∧
    F64.eq (MakeDecider h env pa cfg svc).decider.Spec.PanicThreshold F64.zero = true ∧
    F64.gt (MakeDecider h env pa cfg svc).decider.Spec.PanicThreshold
      (MakeDecider h env pa cfg svc).decider.Spec.TargetConcurrency = false := by
  have hz : F64.ofInt32 a = F64.zero := by
    rw [F64.ofInt32_exact, ha]
    simp [F64.zero]
  have htarget : (MakeDecider h env pa cfg svc).decider.Spec.TargetConcurrency = F64.zero := by
    show (resolveTarget _ (env.Target h pa)).1 = _
    rw [hann, resolveTarget_accepted _ a (by rw [hz]; exact F64.gt_eq_false_of_le hbase), hz]
  have hthr : (MakeDecider h env pa cfg svc).decider.Spec.PanicThreshold = F64.fin neg 0 := by
    rw [MakeDecider_panicThreshold, htarget, hp]
    have h0 : 100 * F64.one ≠ 0 := Nat.mul_ne_zero (by decide) F64.one_pos.ne'
    simp [F64.zero, F64.mul, F64.div, F64.hundred, F64.round_zero, h0]
  refine ⟨htarget, hthr, ?_, ?_⟩
  · rw [hthr]
    cases neg <;> simp [F64.eq, F64.le, F64.zero, F64.sval]
  · rw [hthr, htarget]
    cases neg <;> simp [F64.gt, F64.lt, F64.zero, F64.sval]

/-- C16 at base 10, annotation 0 and percentage 200: target 0, threshold 0. -/
theorem C16_zero_annotation_zero_threshold_witness :
    (MakeDecider sampleHeap (fixedEnv (F64.ofInt 10) (some (Int32.ofInt 0)) none 0) samplePA
        sampleConfig "svc").decider.Spec.TargetConcurrency = F64.zero ∧
    (MakeDecider sampleHeap (fixedEnv (F64.ofInt 10) (some (Int32.ofInt 0)) none 0) samplePA
        sampleConfig "svc").decider.Spec.PanicThreshold = F64.zero ∧
    F64.gt (F64.ofInt 200) F64.hundred = true :=
  ⟨(C16_zero_annotation_zero_threshold sampleHeap
      (fixedEnv (F64.ofInt 10) (some (Int32.ofInt 0)) none 0) samplePA sampleConfig "svc"
      (Int32.ofInt 0) false (200 * F64.one) rfl (by decide) (by decide) (by decide)).1,
    (C16_zero_annotation_zero_threshold sampleHeap
      (fixedEnv (F64.ofInt 10) (some (Int32.ofInt 0)) none 0) samplePA sampleConfig "svc"
      (Int32.ofInt 0) false (200 * F64.one) rfl (by decide) (by decide) (by decide)).2.1,
    by decide⟩

end Knative
